import Mathlib

/-!
Verification of the PLMXML ingestion pipeline (stream reader, hierarchy
builder, and the CSV-consumer detail rendering) of the PythonPLMXMLViewer
repository, as a shallow embedding.

Modelling conventions:
* Python `dict[str, T]` tables become insertion-ordered association lists
  (`Dict T`) with last-write-wins insertion that keeps the original key
  position, exactly like CPython dicts.
* Python object identity: every `Occurrence` object lives in the
  `occurrences` table (it is inserted there at creation and never removed),
  so object references are modelled as identifiers and in-place mutation as
  an update of the table entry.  `subOccurrences` and `ProductView.occurrences`
  therefore hold identifiers (pointers into the table).
* Python `None` becomes `Option.none`; Python string truthiness is modelled
  explicitly (`none` and `some ""` are falsy).
* The unbounded recursion of `_build_sub_occurrences` is modelled with an
  explicit fuel parameter: `none` means the recursion did not complete within
  the given stack budget (in CPython this surfaces as a RecursionError, which
  `PLMXMLParser.parse` swallows, returning `None`).
* Filesystem-dependent behaviour (lxml event production, `os.path.exists`,
  absolute-path resolution for `ExternalFile`) is at the boundary of the
  model: the XML stream is an explicit event list, and the fatal outcomes of
  `parse_plmxml` (file missing, unrecoverable XML stream) are explicit
  constructors of the input type.
-/

/-! ## Insertion-ordered string-keyed dictionaries (CPython dict semantics) -/

/-- A Python `dict[str, α]`: insertion-ordered association list with unique
keys maintained by `dinsert`. -/
abbrev Dict (α : Type) : Type := List (String × α)

/-- Python `d[k] = v`: overwrite in place if the key exists (keeping its
position), else append at the end. -/
def dinsert (k : String) (v : α) : Dict α → Dict α
  | [] => [(k, v)]
  | (k', v') :: rest => if k' = k then (k, v) :: rest else (k', v') :: dinsert k v rest

/-- Python `d.get(k)` / `d[k]`: the value stored at `k`, if any. -/
def dfind (k : String) : Dict α → Option α
  | [] => none
  | (k', v) :: rest => if k' = k then some v else dfind k rest

/-- Python `k in d`. -/
def dcontains (k : String) (d : Dict α) : Bool :=
  (dfind k d).isSome

/-- Python `d[k].f = ...` for a mutable record stored in the dict: update the
entry at `k` in place, if present. -/
def dupdate (k : String) (f : α → α) : Dict α → Dict α
  | [] => []
  | (k', v) :: rest => if k' = k then (k', f v) :: rest else (k', v) :: dupdate k f rest

/-! ## Data model (src/core/models.py) -/

/-- `ProductData` (models.py). -/
structure ProductData where
  id : String
  productId : Option String := none
  name : Option String := none
  subType : Option String := none
  uid : Option String := none
deriving DecidableEq, Repr

/-- `ProductRevisionData` (models.py). -/
structure ProductRevisionData where
  id : String
  name : Option String := none
  subType : Option String := none
  revision : Option String := none
  masterRef : Option String := none
  objectString : Option String := none
  lastModDate : Option String := none
  associatedAttachmentRefs : List String := []
  revisionUid : Option String := none
  userAttributes : Dict String := []
deriving DecidableEq, Repr

/-- One `{'role': ..., 'dataSetId': ...}` entry of `attachment_details`
(parser.py, `_build_sub_occurrences`).  The builder only ever stores a
non-`None` `dataSetId`, hence the plain `String`. -/
structure AttachmentDetail where
  role : Option String
  dataSetId : String
deriving DecidableEq, Repr

/-- `Occurrence` (models.py).  `subOccurrences` holds the identifiers of the
child `Occurrence` objects: every `Occurrence` object lives in the
document-wide `occurrences` dict, so an object reference is its id. -/
structure Occurrence where
  id : String
  instancedRef : Option String := none
  associatedAttachmentRefs : List String := []
  occurrenceRefIDs : List String := []
  sequenceNumber : Option String := none
  quantity : Option String := none
  userAttributes : Dict String := []
  displayName : Option String := none
  name : Option String := none
  subType : Option String := none
  revision : Option String := none
  lastModDate : Option String := none
  productId : Option String := none
  attachment_details : List AttachmentDetail := []
  subOccurrences : List String := []
deriving DecidableEq, Repr

/-- `ProductView` (models.py).  `occurrences` holds the identifiers of the
resolved root `Occurrence` objects after hierarchy building. -/
structure ProductView where
  id : String
  ruleRefs : List String := []
  primaryOccurrenceRef : Option String := none
  rootRefs : List String := []
  occurrences : List String := []
deriving DecidableEq, Repr

/-- `RevisionRuleData` (models.py). -/
structure RevisionRuleData where
  id : String
  name : Option String := none
deriving DecidableEq, Repr

/-- `AssociatedAttachment` (models.py). -/
structure AssociatedAttachment where
  id : String
  attachmentRef : Option String := none
  role : Option String := none
deriving DecidableEq, Repr

/-- `FormData` (models.py). -/
structure FormData where
  id : String
  name : Option String := none
  subType : Option String := none
  subClass : Option String := none
  uid : Option String := none
  userAttributes : Dict String := []
deriving DecidableEq, Repr

/-- `ExternalFileData` (models.py).  The computed absolute path (`fullPath`)
depends on the filesystem and is outside the model; no claim consults it. -/
structure ExternalFileData where
  id : String
  format : Option String := none
  locationRef : Option String := none
deriving DecidableEq, Repr

/-- `DataSetData` (models.py). -/
structure DataSetData where
  id : String
  name : Option String := none
  type : Option String := none
  version : Option String := none
  memberRefs : List String := []
  uid : Option String := none
deriving DecidableEq, Repr

/-- `SiteData` (models.py). -/
structure SiteData where
  id : String
  name : Option String := none
  siteId : Option String := none
deriving DecidableEq, Repr

/-- `PLMXMLGeneralData` (models.py): `id` holds the schema version. -/
structure PLMXMLGeneralData where
  id : String
  author : Option String := none
  date : Option String := none
  time : Option String := none
deriving DecidableEq, Repr

/-- `PLMXMLTransferContextlData` (models.py). -/
structure PLMXMLTransferContextlData where
  id : String
  transferContext : Option String := none
deriving DecidableEq, Repr

/-- `ParsedPLMXMLData` (models.py), minus the filesystem-only
`plmxml_directory` field. -/
structure ParsedPLMXMLData where
  productViews : List ProductView := []
  revisionRules : Dict RevisionRuleData := []
  generalInfo : Dict PLMXMLGeneralData := []
  sites : Dict SiteData := []
  transferContexts : Dict PLMXMLTransferContextlData := []
  productRevisions : Dict ProductRevisionData := []
  products : Dict ProductData := []
  occurrences : Dict Occurrence := []
  associatedAttachments : Dict AssociatedAttachment := []
  forms : Dict FormData := []
  dataSets : Dict DataSetData := []
  externalFiles : Dict ExternalFileData := []
deriving DecidableEq, Repr

/-! ## Parser context and state (src/core/parser.py) -/

/-- The recognized PLMXML namespace (parser.py, `PLMXML_NS`). -/
def PLMXML_NS : String := "http://www.plmxml.org/Schemas/PLMXMLSchema"

/-- `PLMXMLParser._current_context`: a dict from open element-type name to
the record most recently created for that type.  Since its keys are drawn
from a fixed set, it is modelled as one optional identifier per key (the
stored object is the table entry with that identifier) plus the
`in_AttributesInContext` flag. -/
structure Context where
  plmxml : Option String := none
  header : Option String := none
  site : Option String := none
  productView : Option String := none
  occurrence : Option String := none
  product : Option String := none
  productRevision : Option String := none
  form : Option String := none
  dataSet : Option String := none
  inAttributesInContext : Bool := false
deriving DecidableEq, Repr

/-- The warnings printed by `_build_hierarchy_and_link_data` and
`_build_sub_occurrences`. -/
inductive Warning where
  | rootNotFound (rootId : String) (pvId : String)
  | childNotFound (childId : String) (parentId : String)
  | attachmentNotFound (attId : String) (revId : String)
deriving DecidableEq, Repr

/-- The full mutable state of one `PLMXMLParser`. -/
structure ParserState where
  data : ParsedPLMXMLData := {}
  ctx : Context := {}
  warnings : List Warning := []
deriving DecidableEq, Repr

/-- The parser's initial state (`PLMXMLParser.__init__`). -/
def initState : ParserState := {}

/-! ## Reference helpers (parser.py, `_strip_hash` / `_split_refs`) -/

/-- `_strip_hash` on a string: removes a leading `#`. -/
def stripHashStr (r : String) : String :=
  match r.data with
  | c :: rest => if c = '#' then String.mk rest else r
  | [] => r

/-- `_strip_hash` as applied to `attrib.get(...)`: `None` passes through. -/
def stripHash : Option String → Option String
  | none => none
  | some r => some (stripHashStr r)

/-- Python `str.split()` with no argument: split on runs of whitespace,
dropping empty pieces (`acc` holds the reversed current word). -/
def pySplitWsAux : List Char → List Char → List String
  | [], acc => if acc = [] then [] else [String.mk acc.reverse]
  | c :: rest, acc =>
    if c.isWhitespace then
      if acc = [] then pySplitWsAux rest []
      else String.mk acc.reverse :: pySplitWsAux rest []
    else pySplitWsAux rest (c :: acc)

/-- Python `str.split()`. -/
def pySplitWs (s : String) : List String :=
  pySplitWsAux s.data []

/-- `_split_refs`: split a whitespace-separated reference list and strip the
leading `#` of each entry; `None` and `""` give `[]`. -/
def splitRefs : Option String → List String
  | none => []
  | some s => (pySplitWs s).map stripHashStr

/-- The element id used for table insertion: `attrib.get('id')` combined with
the truthiness check of the `elif tag_name = ... and elem_id:` guards. -/
def idOf (attrib : Dict String) : Option String :=
  match dfind "id" attrib with
  | none => none
  | some i => if i = "" then none else some i

/-- Python string truthiness of an optional attribute value. -/
def truthy : Option String → Bool
  | none => false
  | some s => s ≠ ""

/-! ## Stream reader (parser.py, `_handle_start_element` / `_handle_end_element`) -/

/-- One element-open or element-close event of the XML stream, as produced by
the `iterparse` loop in `PLMXMLParser.parse` after QName splitting:
namespace (None for an element without a namespace), local tag name, and the
attribute dict (open events only). -/
inductive XMLEvent where
  | startEv (ns : Option String) (tag : String) (attrib : Dict String)
  | endEv (ns : Option String) (tag : String)
deriving DecidableEq, Repr

/-- The `PLMXML` branch of `_handle_start_element`. -/
def startPLMXML (attrib : Dict String) (st : ParserState) : ParserState :=
  let sv := (dfind "schemaVersion" attrib).getD "unknown"
  let info : PLMXMLGeneralData :=
    { id := sv, author := dfind "author" attrib, date := dfind "date" attrib,
      time := dfind "time" attrib }
  { st with data := { st.data with generalInfo := dinsert sv info st.data.generalInfo },
            ctx := { st.ctx with plmxml := some sv } }

/-- The `Header` branch of `_handle_start_element`. -/
def startHeader (attrib : Dict String) (st : ParserState) : ParserState :=
  match idOf attrib with
  | some i =>
    let hdr : PLMXMLTransferContextlData :=
      { id := i, transferContext := dfind "transferContext" attrib }
    { st with data := { st.data with transferContexts := dinsert i hdr st.data.transferContexts },
              ctx := { st.ctx with header := some i } }
  | none => st

/-- The `Site` branch of `_handle_start_element`. -/
def startSite (attrib : Dict String) (st : ParserState) : ParserState :=
  match idOf attrib with
  | some i =>
    let site : SiteData := { id := i, name := dfind "name" attrib, siteId := dfind "siteId" attrib }
    { st with data := { st.data with sites := dinsert i site st.data.sites },
              ctx := { st.ctx with site := some i } }
  | none => st

/-- The `ProductView` branch of `_handle_start_element`. -/
def startProductView (attrib : Dict String) (st : ParserState) : ParserState :=
  match idOf attrib with
  | some i =>
    let pv : ProductView :=
      { id := i, ruleRefs := splitRefs (dfind "ruleRefs" attrib),
        primaryOccurrenceRef := stripHash (dfind "primaryOccurrenceRef" attrib),
        rootRefs := splitRefs (dfind "rootRefs" attrib) }
    { st with data := { st.data with productViews := st.data.productViews ++ [pv] },
              ctx := { st.ctx with productView := some i } }
  | none => st

/-- The `Occurrence` branch of `_handle_start_element`. -/
def startOccurrence (attrib : Dict String) (st : ParserState) : ParserState :=
  match idOf attrib with
  | some i =>
    let occ : Occurrence :=
      { id := i, instancedRef := stripHash (dfind "instancedRef" attrib),
        associatedAttachmentRefs := splitRefs (dfind "associatedAttachmentRefs" attrib),
        occurrenceRefIDs := splitRefs (dfind "occurrenceRefs" attrib) }
    { st with data := { st.data with occurrences := dinsert i occ st.data.occurrences },
              ctx := { st.ctx with occurrence := some i } }
  | none => st

/-- The `Product` branch of `_handle_start_element`. -/
def startProduct (attrib : Dict String) (st : ParserState) : ParserState :=
  match idOf attrib with
  | some i =>
    let prod : ProductData :=
      { id := i, productId := dfind "productId" attrib, name := dfind "name" attrib,
        subType := dfind "subType" attrib }
    { st with data := { st.data with products := dinsert i prod st.data.products },
              ctx := { st.ctx with product := some i } }
  | none => st

/-- The `ProductRevision` branch of `_handle_start_element`. -/
def startProductRevision (attrib : Dict String) (st : ParserState) : ParserState :=
  match idOf attrib with
  | some i =>
    let rev : ProductRevisionData :=
      { id := i, name := dfind "name" attrib, subType := dfind "subType" attrib,
        revision := dfind "revision" attrib,
        masterRef := stripHash (dfind "masterRef" attrib),
        associatedAttachmentRefs := [] }
    { st with data := { st.data with productRevisions := dinsert i rev st.data.productRevisions },
              ctx := { st.ctx with productRevision := some i } }
  | none => st

/-- The `RevisionRule` branch of `_handle_start_element`. -/
def startRevisionRule (attrib : Dict String) (st : ParserState) : ParserState :=
  match idOf attrib with
  | some i =>
    let rule : RevisionRuleData := { id := i, name := dfind "name" attrib }
    { st with data := { st.data with revisionRules := dinsert i rule st.data.revisionRules } }
  | none => st

/-- The `AssociatedAttachment` branch of `_handle_start_element`. -/
def startAssociatedAttachment (attrib : Dict String) (st : ParserState) : ParserState :=
  match idOf attrib with
  | some i =>
    let att : AssociatedAttachment :=
      { id := i, attachmentRef := stripHash (dfind "attachmentRef" attrib),
        role := dfind "role" attrib }
    { st with data :=
        { st.data with associatedAttachments := dinsert i att st.data.associatedAttachments } }
  | none => st

/-- The `Form` branch of `_handle_start_element`. -/
def startForm (attrib : Dict String) (st : ParserState) : ParserState :=
  match idOf attrib with
  | some i =>
    let form : FormData :=
      { id := i, name := dfind "name" attrib, subType := dfind "subType" attrib,
        subClass := dfind "subClass" attrib }
    { st with data := { st.data with forms := dinsert i form st.data.forms },
              ctx := { st.ctx with form := some i } }
  | none => st

/-- The `DataSet` branch of `_handle_start_element`. -/
def startDataSet (attrib : Dict String) (st : ParserState) : ParserState :=
  match idOf attrib with
  | some i =>
    let ds : DataSetData :=
      { id := i, name := dfind "name" attrib, type := dfind "type" attrib,
        version := dfind "version" attrib, memberRefs := splitRefs (dfind "memberRefs" attrib) }
    { st with data := { st.data with dataSets := dinsert i ds st.data.dataSets },
              ctx := { st.ctx with dataSet := some i } }
  | none => st

/-- The `ExternalFile` branch of `_handle_start_element`. -/
def startExternalFile (attrib : Dict String) (st : ParserState) : ParserState :=
  match idOf attrib with
  | some i =>
    let ef : ExternalFileData :=
      { id := i, format := dfind "format" attrib, locationRef := dfind "locationRef" attrib }
    { st with data := { st.data with externalFiles := dinsert i ef st.data.externalFiles } }
  | none => st

/-- The `UserData` branch of `_handle_start_element`. -/
def startUserData (attrib : Dict String) (st : ParserState) : ParserState :=
  if dfind "type" attrib = some "AttributesInContext" then
    { st with ctx := { st.ctx with inAttributesInContext := true } }
  else st

/-- The routing of one non-empty titled value (the body of the `UserValue`
branch after the guards): occurrence in context, else open revision, else
open form, else dropped. -/
def routeValue (t v : String) (st : ParserState) : ParserState :=
  match (if st.ctx.inAttributesInContext then st.ctx.occurrence else none) with
  | some oid =>
    let f : Occurrence → Occurrence := fun occ =>
      if t = "SequenceNumber" then { occ with sequenceNumber := some v }
      else if t = "Quantity" then { occ with quantity := some v }
      else { occ with userAttributes := dinsert t v occ.userAttributes }
    { st with data := { st.data with occurrences := dupdate oid f st.data.occurrences } }
  | none =>
    match st.ctx.productRevision with
    | some rid =>
      let f : ProductRevisionData → ProductRevisionData := fun rev =>
        if t = "object_string" then { rev with objectString := some v }
        else if t = "last_mod_date" then { rev with lastModDate := some v }
        else { rev with userAttributes := dinsert t v rev.userAttributes }
      { st with data :=
          { st.data with productRevisions := dupdate rid f st.data.productRevisions } }
    | none =>
      match st.ctx.form with
      | some fid =>
        let f : FormData → FormData := fun form =>
          { form with userAttributes := dinsert t v form.userAttributes }
        { st with data := { st.data with forms := dupdate fid f st.data.forms } }
      | none => st

/-- The `UserValue` branch of `_handle_start_element` (value routing). -/
def startUserValue (attrib : Dict String) (st : ParserState) : ParserState :=
  match dfind "title" attrib, dfind "value" attrib with
  | some t, some v => if t = "" then st else routeValue t v st
  | _, _ => st

/-- The `ApplicationRef` branch of `_handle_start_element`. -/
def startApplicationRef (attrib : Dict String) (st : ParserState) : ParserState :=
  let version := dfind "version" attrib
  let label := dfind "label" attrib
  let st1 :=
    if truthy version then
      match st.ctx.productRevision with
      | some rid =>
        let f : ProductRevisionData → ProductRevisionData :=
          fun rev => { rev with revisionUid := version }
        { st with data :=
            { st.data with productRevisions := dupdate rid f st.data.productRevisions } }
      | none => st
    else st
  if truthy label then
    match st1.ctx.product with
    | some pid =>
      let f : ProductData → ProductData := fun prod => { prod with uid := label }
      { st1 with data := { st1.data with products := dupdate pid f st1.data.products } }
    | none =>
      match st1.ctx.dataSet with
      | some did =>
        let f : DataSetData → DataSetData := fun ds => { ds with uid := label }
        { st1 with data := { st1.data with dataSets := dupdate did f st1.data.dataSets } }
      | none =>
        match st1.ctx.form with
        | some fid =>
          let f : FormData → FormData := fun form => { form with uid := label }
          { st1 with data := { st1.data with forms := dupdate fid f st1.data.forms } }
        | none => st1
  else st1

/-- `_handle_start_element` (parser.py lines 86-292): namespace filter, then
dispatch on the local tag name. -/
def handleStartElement (tagName : String) (tagNs : Option String) (attrib : Dict String)
    (st : ParserState) : ParserState :=
  if tagNs ≠ some PLMXML_NS then st
  else if tagName = "PLMXML" then startPLMXML attrib st
  else if tagName = "Header" then startHeader attrib st
  else if tagName = "Site" then startSite attrib st
  else if tagName = "ProductView" then startProductView attrib st
  else if tagName = "Occurrence" then startOccurrence attrib st
  else if tagName = "Product" then startProduct attrib st
  else if tagName = "ProductRevision" then startProductRevision attrib st
  else if tagName = "RevisionRule" then startRevisionRule attrib st
  else if tagName = "AssociatedAttachment" then startAssociatedAttachment attrib st
  else if tagName = "Form" then startForm attrib st
  else if tagName = "DataSet" then startDataSet attrib st
  else if tagName = "ExternalFile" then startExternalFile attrib st
  else if tagName = "UserData" then startUserData attrib st
  else if tagName = "UserValue" then startUserValue attrib st
  else if tagName = "AssociatedDataSet" then st
  else if tagName = "ApplicationRef" then startApplicationRef attrib st
  else st

/-- `_handle_end_element` (parser.py lines 295-306): context-only cleanup,
performed without any namespace check.  The `PLMXML` context entry is never
removed. -/
def handleEndElement (tagName : String) (st : ParserState) : ParserState :=
  let c := st.ctx
  let c :=
    if tagName = "Header" then { c with header := none }
    else if tagName = "Site" then { c with site := none }
    else if tagName = "ProductView" then { c with productView := none }
    else if tagName = "Occurrence" then { c with occurrence := none }
    else if tagName = "Product" then { c with product := none }
    else if tagName = "ProductRevision" then { c with productRevision := none }
    else if tagName = "Form" then { c with form := none }
    else if tagName = "DataSet" then { c with dataSet := none }
    else if tagName = "in_AttributesInContext" then { c with inAttributesInContext := false }
    else c
  let c := if tagName = "UserData" then { c with inAttributesInContext := false } else c
  { st with ctx := c }

/-- One iteration of the `iterparse` loop in `PLMXMLParser.parse`: the start
handler receives the namespace (and filters on it); the end handler is called
for every element, namespace unchecked. -/
def processEvent (st : ParserState) (ev : XMLEvent) : ParserState :=
  match ev with
  | .startEv ns tag attrib => handleStartElement tag ns attrib st
  | .endEv _ tag => handleEndElement tag st

/-- The whole streaming pass. -/
def processEvents (evs : List XMLEvent) (st : ParserState) : ParserState :=
  evs.foldl processEvent st

/-! ## Hierarchy builder (parser.py, `_build_hierarchy_and_link_data` /
`_build_sub_occurrences`) -/

/-- Append one builder warning (a `print` in the source). -/
def addWarning (w : Warning) (st : ParserState) : ParserState :=
  { st with warnings := st.warnings ++ [w] }

/-- Python `objectString or name` (string truthiness). -/
def pyOr (a b : Option String) : Option String :=
  match a with
  | some s => if s = "" then b else a
  | none => b

/-- The attachment loop of `_build_sub_occurrences` (parser.py lines
345-359): resolve each id of `associatedAttachmentRefs` through the
`associatedAttachments` table; keep a `{'role', 'dataSetId'}` detail only
when the attachment's target is a truthy reference present in `dataSets`;
an id missing from the table produces a warning naming the revision. -/
def resolveAttachments (refs : List String) (revId : String) (d : ParsedPLMXMLData) :
    List AttachmentDetail × List Warning :=
  match refs with
  | [] => ([], [])
  | a :: rest =>
    let tail := resolveAttachments rest revId d
    match dfind a d.associatedAttachments with
    | some att =>
      match att.attachmentRef with
      | some r =>
        if r ≠ "" ∧ dcontains r d.dataSets then
          ({ role := att.role, dataSetId := r } :: tail.1, tail.2)
        else tail
      | none => tail
    | none => (tail.1, Warning.attachmentNotFound a revId :: tail.2)

/-- Generic resolved-reference loop: look each id up in the `occurrences`
table, build the found ones with `bs` (threading the state) in list order,
and emit `mkWarn` for the missing ones.  Instantiated with
`Warning.childNotFound` for the child loop of `_build_sub_occurrences` and
with `Warning.rootNotFound` for the root loop of
`_build_hierarchy_and_link_data`.  `none` propagates a failed (out-of-fuel)
recursive build. -/
def buildListF (bs : ParserState → String → Option ParserState) (mkWarn : String → Warning)
    (st : ParserState) : List String → Option (ParserState × List String)
  | [] => some (st, [])
  | c :: rest =>
    if dcontains c st.data.occurrences then
      match bs st c with
      | none => none
      | some st1 =>
        match buildListF bs mkWarn st1 rest with
        | none => none
        | some (st2, ids) => some (st2, c :: ids)
    else buildListF bs mkWarn (addWarning (mkWarn c) st) rest

/-- The first half of `_build_sub_occurrences` (parser.py lines 335-365):
if the occurrence's `instancedRef` is a truthy reference to a known
`ProductRevision`, write the display fields (preferring `objectString` over
`name`), the attachment details and — when `masterRef` resolves — the product
code onto the table entry at `occId`, appending the attachment warnings. -/
def linkApply (st : ParserState) (occId : String) (f : Occurrence → Occurrence)
    (ws : List Warning) : ParserState :=
  { st with data := { st.data with occurrences := dupdate occId f st.data.occurrences },
            warnings := st.warnings ++ ws }

/-- The product code `_build_sub_occurrences` copies through `masterRef`
(parser.py lines 362-365); a dangling or falsy `masterRef` leaves the
occurrence's `productId` as it was. -/
def resolvedPid (occ : Occurrence) (revData : ProductRevisionData)
    (d : ParsedPLMXMLData) : Option String :=
  match revData.masterRef with
  | some m =>
    if m ≠ "" then
      match dfind m d.products with
      | some prodData => prodData.productId
      | none => occ.productId
    else occ.productId
  | none => occ.productId

/-- The field update `_build_sub_occurrences` performs on the occurrence
object when its revision resolves (parser.py lines 338-357). -/
def linkFields (occ : Occurrence) (revData : ProductRevisionData) (d : ParsedPLMXMLData)
    (o : Occurrence) : Occurrence :=
  { o with displayName := pyOr revData.objectString revData.name,
           name := revData.name, subType := revData.subType,
           revision := revData.revision, lastModDate := revData.lastModDate,
           attachment_details := (resolveAttachments occ.associatedAttachmentRefs revData.id d).1,
           productId := resolvedPid occ revData d }

def linkRevision (st : ParserState) (occId : String) (occ : Occurrence) : ParserState :=
  match occ.instancedRef with
  | some iref =>
    if iref ≠ "" then
      match dfind iref st.data.productRevisions with
      | some revData =>
        linkApply st occId (linkFields occ revData st.data)
          (resolveAttachments occ.associatedAttachmentRefs revData.id st.data).2
      | none => st
    else st
  | none => st

/-- The final write of `_build_sub_occurrences` (parser.py line 376):
`new_occ.subOccurrences = children`, on the table entry at `occId`. -/
def writeSubOccs (st : ParserState) (occId : String) (childIds : List String) : ParserState :=
  let g : Occurrence → Occurrence := fun o => { o with subOccurrences := childIds }
  { st with data := { st.data with occurrences := dupdate occId g st.data.occurrences } }

/-- `_build_sub_occurrences` (parser.py lines 329-378), with an explicit
recursion budget.  `buildSub fuel st occId` resolves the occurrence stored at
`occId` in place: link the revision data (`linkRevision`), then build every
child reference recursively in order (missing children are warned about and
omitted), and write the resulting child-id list to the entry's
`subOccurrences`.  `none` models the unbounded recursion not completing
(CPython: RecursionError). -/
def buildSub : Nat → ParserState → String → Option ParserState
  | 0, _, _ => none
  | fuel + 1, st, occId =>
    match dfind occId st.data.occurrences with
    | none => some st
    | some occ =>
      match buildListF (buildSub fuel) (fun c => Warning.childNotFound c occId)
          (linkRevision st occId occ) occ.occurrenceRefIDs with
      | none => none
      | some (st2, childIds) => some (writeSubOccs st2 occId childIds)

/-- The root-identifier list of one `ProductView` (parser.py lines 313-315):
`rootRefs` if non-empty, else the truthy `primaryOccurrenceRef` as a
singleton, else empty. -/
def rootIdsOf (pv : ProductView) : List String :=
  if pv.rootRefs ≠ [] then pv.rootRefs
  else
    match pv.primaryOccurrenceRef with
    | some p => if p ≠ "" then [p] else []
    | none => []

/-- The per-`ProductView` loop of `_build_hierarchy_and_link_data`: resolve
each view's roots in order, writing the resolved root-id list onto the view. -/
def buildPVs (fuel : Nat) (st : ParserState) :
    List ProductView → Option (ParserState × List ProductView)
  | [] => some (st, [])
  | pv :: rest =>
    match buildListF (buildSub fuel) (fun r => Warning.rootNotFound r pv.id) st
        (rootIdsOf pv) with
    | none => none
    | some (st1, ids) =>
      match buildPVs fuel st1 rest with
      | none => none
      | some (st2, outRest) => some (st2, { pv with occurrences := ids } :: outRest)

/-- `_build_hierarchy_and_link_data` (parser.py lines 309-326). -/
def buildHierarchy (fuel : Nat) (st : ParserState) : Option ParserState :=
  match buildPVs fuel st st.data.productViews with
  | none => none
  | some (st1, pvs) => some { st1 with data := { st1.data with productViews := pvs } }

/-! ## Entry points (parser.py, `PLMXMLParser.parse` / `parse_plmxml` /
`parse_plmxml_header`) -/

/-- The outcome of opening the XML stream with `etree.iterparse`: either the
underlying reader is unrecoverable (`etree.XMLSyntaxError`), or it yields a
sequence of start/end events. -/
inductive XMLSource where
  | unrecoverable
  | events (evs : List XMLEvent)
deriving DecidableEq, Repr

/-- The input of `parse_plmxml`: the file is missing (`os.path.exists` is
false) or it opens as an XML source. -/
inductive FileInput where
  | notFound
  | found (src : XMLSource)
deriving DecidableEq, Repr

/-- `PLMXMLParser.parse` (parser.py lines 35-83): run the streaming pass,
then build the hierarchy; an `XMLSyntaxError` or any other exception during
the parse (in particular the RecursionError of an unbounded hierarchy
recursion, modelled as `buildHierarchy` running out of fuel) yields `none`. -/
def parserParse (fuel : Nat) (src : XMLSource) : Option ParserState :=
  match src with
  | .unrecoverable => none
  | .events evs =>
    match buildHierarchy fuel (processEvents evs initState) with
    | none => none
    | some st => some st

/-- `parse_plmxml` (parser.py lines 383-399). -/
def parse_plmxml (fuel : Nat) (f : FileInput) : Option ParserState :=
  match f with
  | .notFound => none
  | .found src => parserParse fuel src

/-- The dictionary returned by `parse_plmxml_header` on success. -/
structure HeaderInfo where
  schemaVersion : String
  author : Option String
  date : Option String
  time : Option String
deriving DecidableEq, Repr

/-- `parse_plmxml_header` (parser.py lines 403-430).  Python returns
`None` on parse failure, `{}` when the parse succeeded but found no
`PLMXMLGeneralData`, and a populated dict (from the first-inserted general
info) otherwise; the three outcomes are modelled as `none`, `some none` and
`some (some h)`. -/
def parse_plmxml_header (fuel : Nat) (f : FileInput) : Option (Option HeaderInfo) :=
  match parse_plmxml fuel f with
  | none => none
  | some st =>
    match st.data.generalInfo with
    | [] => some none
    | (_, gi) :: _ =>
      some (some { schemaVersion := gi.id, author := gi.author, date := gi.date,
                   time := gi.time })

/-! ## Consumer rendering (src/main.py, `_write_csv_recursive_cli`) -/

/-- Python `x or dflt` for the string fields of the renderer. -/
def pyOrD (o : Option String) (dflt : String) : String :=
  match o with
  | some s => if s = "" then dflt else s
  | none => dflt

/-- Python f-string rendering of a possibly-`None` value. -/
def pyStr (o : Option String) : String :=
  match o with
  | some s => s
  | none => "None"

/-- One member-file part of the dataset detail string (main.py lines 38-45):
location and format for a resolved member, a not-found marker otherwise. -/
def formatFileInfo (d : ParsedPLMXMLData) (memberRef : String) : String :=
  match dfind memberRef d.externalFiles with
  | some ef => pyOrD ef.locationRef "N/A" ++ " (" ++ pyOrD ef.format "N/A" ++ ")"
  | none => "Ref: " ++ memberRef ++ " (Not Found)"

/-- The resolved-dataset branch of the detail rendering (main.py lines
33-48): type, name and the member files in their original member order. -/
def formatDatasetFound (d : ParsedPLMXMLData) (det : AttachmentDetail) : String :=
  match dfind det.dataSetId d.dataSets with
  | some ds =>
    let files := ds.memberRefs.map (formatFileInfo d)
    let fileStr := if files = [] then "No Files" else String.intercalate "; " files
    "Role: " ++ pyStr det.role ++ ", Type: " ++ pyOrD ds.type "N/A" ++ ", Name: " ++
      pyOrD ds.name det.dataSetId ++ ", Files: [" ++ fileStr ++ "]"
  | none => ""

/-- The unresolved-dataset branch of the detail rendering (main.py line 50). -/
def formatDatasetNotFound (det : AttachmentDetail) : String :=
  "Role: " ++ pyStr det.role ++ ", DataSet ID: " ++ det.dataSetId ++ " (Not Found)"

/-- One dataset detail string (main.py lines 29-50): the resolved branch when
the detail's dataset id is truthy and present in the `dataSets` table, the
not-found branch otherwise. -/
def formatDatasetDetail (d : ParsedPLMXMLData) (det : AttachmentDetail) : String :=
  if det.dataSetId ≠ "" ∧ dcontains det.dataSetId d.dataSets then formatDatasetFound d det
  else formatDatasetNotFound det

/-- The dataset detail strings of one occurrence, in `attachment_details`
order (main.py lines 27-50). -/
def datasetDetailStrings (d : ParsedPLMXMLData) (occ : Occurrence) : List String :=
  occ.attachment_details.map (formatDatasetDetail d)

/-! ## Occurrence equality and hashing (models.py lines 52-58) -/

/-- `Occurrence.__eq__`: equality of the `id` fields (between two
`Occurrence` values; other types yield `NotImplemented`). -/
def occEq (a b : Occurrence) : Bool :=
  a.id == b.id

/-- `Occurrence.__hash__`: `hash(self.id)`, i.e. the builtin string hash
(abstracted as the parameter `h`) applied to the `id` field. -/
def occHashWith (h : String → Nat) (a : Occurrence) : Nat :=
  h a.id

/-! ## Spec-side characterizations (used in theorem statements only) -/

/-- The detail the attachment loop keeps for one attachment id, if any:
characterization target for the loop of `_build_sub_occurrences`. -/
def attDetailOf (d : ParsedPLMXMLData) (attId : String) : Option AttachmentDetail :=
  match dfind attId d.associatedAttachments with
  | some att =>
    match att.attachmentRef with
    | some r =>
      if r ≠ "" ∧ dcontains r d.dataSets then some { role := att.role, dataSetId := r }
      else none
    | none => none
  | none => none

/-- The value-routing rule for an `Occurrence` open in an attributes-in-context
block: `SequenceNumber` and `Quantity` to the dedicated fields, every other
title to the named-attribute map. -/
def routeOccValue (t v : String) (occ : Occurrence) : Occurrence :=
  if t = "SequenceNumber" then { occ with sequenceNumber := some v }
  else if t = "Quantity" then { occ with quantity := some v }
  else { occ with userAttributes := dinsert t v occ.userAttributes }

/-- The value-routing rule for an open `ProductRevision`: `object_string` and
`last_mod_date` to the dedicated fields, every other title to the
named-attribute map. -/
def routeRevValue (t v : String) (rev : ProductRevisionData) : ProductRevisionData :=
  if t = "object_string" then { rev with objectString := some v }
  else if t = "last_mod_date" then { rev with lastModDate := some v }
  else { rev with userAttributes := dinsert t v rev.userAttributes }

/-- The value-routing rule for an open `Form`: every title to the
named-attribute map. -/
def routeFormValue (t v : String) (form : FormData) : FormData :=
  { form with userAttributes := dinsert t v form.userAttributes }

/-- The element local names interpreted by `_handle_start_element` within the
recognized namespace. -/
def recognizedTags : List String :=
  ["PLMXML", "Header", "Site", "ProductView", "Occurrence", "Product", "ProductRevision",
   "RevisionRule", "AssociatedAttachment", "Form", "DataSet", "ExternalFile", "UserData",
   "UserValue", "AssociatedDataSet", "ApplicationRef"]

/-- The element local names on which `_handle_end_element` can change the
context. -/
def endSensitiveTags : List String :=
  ["Header", "Site", "ProductView", "Occurrence", "Product", "ProductRevision", "Form",
   "DataSet", "in_AttributesInContext", "UserData"]

/-! ## Builder invariants (used in theorem statements) -/

/-- The parse-time fields of an occurrence, which hierarchy building never
rewrites. -/
def occStatics (o : Occurrence) :
    String × Option String × List String × List String × Option String × Option String ×
      Dict String :=
  (o.id, o.instancedRef, o.associatedAttachmentRefs, o.occurrenceRefIDs, o.sequenceNumber,
   o.quantity, o.userAttributes)

/-- All record tables other than `occurrences` (and the `productViews` list)
agree between two states. -/
def TablesEq (s t : ParserState) : Prop :=
  t.data.productRevisions = s.data.productRevisions ∧
  t.data.products = s.data.products ∧
  t.data.associatedAttachments = s.data.associatedAttachments ∧
  t.data.dataSets = s.data.dataSets ∧
  t.data.externalFiles = s.data.externalFiles ∧
  t.data.forms = s.data.forms ∧
  t.data.revisionRules = s.data.revisionRules ∧
  t.data.generalInfo = s.data.generalInfo ∧
  t.data.sites = s.data.sites ∧
  t.data.transferContexts = s.data.transferContexts

/-- Every occurrence entry keeps its parse-time fields. -/
def StaticsEq (s t : ParserState) : Prop :=
  ∀ i, (dfind i t.data.occurrences).map occStatics = (dfind i s.data.occurrences).map occStatics

/-- The `attachment_details` stored at `i`, if the entry exists. -/
def detailsAt (s : ParserState) (i : String) : Option (List AttachmentDetail) :=
  (dfind i s.data.occurrences).map Occurrence.attachment_details

/-- The `ProductRevision` the occurrence stored at `i` instances, when its
`instancedRef` is truthy and found (the guard of `_build_sub_occurrences`). -/
def revOf (s : ParserState) (i : String) : Option ProductRevisionData :=
  match dfind i s.data.occurrences with
  | none => none
  | some occ =>
    match occ.instancedRef with
    | none => none
    | some r => if r ≠ "" then dfind r s.data.productRevisions else none

/-- The attachment-reference list of the occurrence stored at `i`. -/
def attRefsOf (s : ParserState) (i : String) : List String :=
  match dfind i s.data.occurrences with
  | some occ => occ.associatedAttachmentRefs
  | none => []

/-- The attachment details `_build_sub_occurrences` computes for the
occurrence stored at `i`, when its `instancedRef` resolves. -/
def expDetails (s : ParserState) (i : String) : Option (List AttachmentDetail) :=
  match revOf s i with
  | some rev => some (resolveAttachments (attRefsOf s i) rev.id s.data).1
  | none => none

/-- Each entry's `attachment_details` is either untouched or set to the
value the builder computes for it. -/
def DetailStep (s t : ParserState) : Prop :=
  ∀ i, detailsAt t i = detailsAt s i ∨
    ((expDetails s i).isSome ∧ detailsAt t i = expDetails s i)

/-- Warnings are only ever appended. -/
def WarnMono (s t : ParserState) : Prop :=
  ∀ w, w ∈ s.warnings → w ∈ t.warnings

/-- The state change one (completed) builder step can make. -/
def BuildInv (s t : ParserState) : Prop :=
  TablesEq s t ∧ t.data.productViews = s.data.productViews ∧ t.ctx = s.ctx ∧
    StaticsEq s t ∧ DetailStep s t ∧ WarnMono s t

/-- Every stored attachment detail names a truthy key of the `dataSets`
table. -/
def DetailsOK (st : ParserState) : Prop :=
  ∀ i occ, dfind i st.data.occurrences = some occ →
    ∀ det ∈ occ.attachment_details, det.dataSetId ≠ "" ∧
      dcontains det.dataSetId st.data.dataSets = true

/-- Every stored `attachment_details` list is empty (true of every state the
streaming pass can produce: only the hierarchy builder fills details in). -/
def OccDetailsEmpty (st : ParserState) : Prop :=
  ∀ i occ, dfind i st.data.occurrences = some occ → occ.attachment_details = []

/-! ## Concrete documents and states used by individual claims -/

/-- The recognized namespace, as carried by events. -/
def plmNS : Option String := some PLMXML_NS

/-- The scenario input of spec §8: PLMXML header, one ProductView rooted at
`occ1`, `occ1` instancing `rev1`, `rev1` with name/revision/masterRef and a
nested `object_string` value, and Product `prodA`. -/
def scenarioEvents : List XMLEvent :=
  [ .startEv plmNS "PLMXML" [("schemaVersion", "6"), ("author", "Test User")],
    .startEv plmNS "ProductView" [("id", "pv1"), ("rootRefs", "#occ1")],
    .startEv plmNS "Occurrence" [("id", "occ1"), ("instancedRef", "#rev1")],
    .endEv plmNS "Occurrence",
    .endEv plmNS "ProductView",
    .startEv plmNS "ProductRevision"
      [("id", "rev1"), ("name", "Part A Rev 1"), ("revision", "1"), ("masterRef", "#prodA")],
    .startEv plmNS "UserData" [("type", "TC Specific Properties")],
    .startEv plmNS "UserValue" [("title", "object_string"), ("value", "PartA-001 / A")],
    .endEv plmNS "UserValue",
    .endEv plmNS "UserData",
    .endEv plmNS "ProductRevision",
    .startEv plmNS "Product" [("id", "prodA"), ("name", "Part A"), ("productId", "PartA-001")],
    .endEv plmNS "Product",
    .endEv plmNS "PLMXML" ]

/-- A document whose only occurrence lists itself as its own child: the
self-cycle on which the unguarded recursive descent never completes. -/
def cyclicEvents : List XMLEvent :=
  [ .startEv plmNS "PLMXML" [("schemaVersion", "6")],
    .startEv plmNS "ProductView" [("id", "pv1"), ("rootRefs", "#occ1")],
    .startEv plmNS "Occurrence" [("id", "occ1"), ("occurrenceRefs", "#occ1")],
    .endEv plmNS "Occurrence",
    .endEv plmNS "ProductView",
    .endEv plmNS "PLMXML" ]

/-- The state after the streaming pass over `cyclicEvents`. -/
def cycState : ParserState := processEvents cyclicEvents initState

/-- A document with two root occurrences: `o1` has no `instancedRef` but a
resolvable attachment (`a1` targeting DataSet `d1`); `o2` instances `rev2`
and carries attachment `a2` whose target is the Form `f1`, not a DataSet. -/
def attEvents : List XMLEvent :=
  [ .startEv plmNS "PLMXML" [("schemaVersion", "6")],
    .startEv plmNS "ProductView" [("id", "pvX"), ("rootRefs", "#o1 #o2")],
    .startEv plmNS "Occurrence" [("id", "o1"), ("associatedAttachmentRefs", "#a1")],
    .endEv plmNS "Occurrence",
    .startEv plmNS "Occurrence"
      [("id", "o2"), ("instancedRef", "#rev2"), ("associatedAttachmentRefs", "#a2")],
    .endEv plmNS "Occurrence",
    .endEv plmNS "ProductView",
    .startEv plmNS "ProductRevision" [("id", "rev2"), ("name", "R2")],
    .endEv plmNS "ProductRevision",
    .startEv plmNS "AssociatedAttachment"
      [("id", "a1"), ("attachmentRef", "#d1"), ("role", "Reference")],
    .endEv plmNS "AssociatedAttachment",
    .startEv plmNS "AssociatedAttachment"
      [("id", "a2"), ("attachmentRef", "#f1"), ("role", "Ref2")],
    .endEv plmNS "AssociatedAttachment",
    .startEv plmNS "DataSet" [("id", "d1"), ("name", "DS1")],
    .endEv plmNS "DataSet",
    .startEv plmNS "Form" [("id", "f1")],
    .endEv plmNS "Form",
    .endEv plmNS "PLMXML" ]

/-- A state with an `Occurrence` open inside an attributes-in-context block
(for the value-routing claims). -/
def routingState : ParserState :=
  processEvents
    [ .startEv plmNS "Occurrence" [("id", "o")],
      .startEv plmNS "UserData" [("type", "AttributesInContext")] ] initState

/-- A state with an `Occurrence` open (for the namespace-filtering claims). -/
def openOccState : ParserState :=
  processEvents [ .startEv plmNS "Occurrence" [("id", "occ1")] ] initState

/-- Two occurrences sharing the id `"X"` but differing in every populated
field (for the equality/hashing claim). -/
def occSampleA : Occurrence :=
  { id := "X", instancedRef := some "r1", occurrenceRefIDs := ["c1"],
    displayName := some "A", userAttributes := [("k", "1")], subOccurrences := ["c1"] }

/-- See `occSampleA`. -/
def occSampleB : Occurrence :=
  { id := "X", quantity := some "5",
    attachment_details := [{ role := some "R", dataSetId := "d" }] }

/-- A document with one root occurrence `oR` instancing `revR` and carrying
attachment `aR`, which resolves through the AssociatedAttachment table to the
DataSet `dR` with two member files. -/
def resolvedAttEvents : List XMLEvent :=
  [ .startEv plmNS "PLMXML" [("schemaVersion", "6")],
    .startEv plmNS "ProductView" [("id", "pvR"), ("rootRefs", "#oR")],
    .startEv plmNS "Occurrence"
      [("id", "oR"), ("instancedRef", "#revR"), ("associatedAttachmentRefs", "#aR")],
    .endEv plmNS "Occurrence",
    .endEv plmNS "ProductView",
    .startEv plmNS "ProductRevision" [("id", "revR")],
    .endEv plmNS "ProductRevision",
    .startEv plmNS "AssociatedAttachment"
      [("id", "aR"), ("attachmentRef", "#dR"), ("role", "Reference")],
    .endEv plmNS "AssociatedAttachment",
    .startEv plmNS "DataSet"
      [("id", "dR"), ("name", "DS"), ("type", "T"), ("memberRefs", "#f1 #f2")],
    .endEv plmNS "DataSet",
    .startEv plmNS "ExternalFile" [("id", "f1"), ("locationRef", "p1"), ("format", "F1")],
    .endEv plmNS "ExternalFile",
    .startEv plmNS "ExternalFile" [("id", "f2"), ("locationRef", "p2"), ("format", "F2")],
    .endEv plmNS "ExternalFile",
    .endEv plmNS "PLMXML" ]

/-- The parse result of `resolvedAttEvents` (total accessor; the parse does
succeed, as the witnesses prove). -/
def resolvedAttState : ParserState :=
  (parse_plmxml 2 (.found (.events resolvedAttEvents))).getD initState

/-- The state after building just the occurrence `oR` of `resolvedAttEvents`
(total accessor). -/
def builtAttState : ParserState :=
  (buildSub 2 (processEvents resolvedAttEvents initState) "oR").getD initState

/-- The hierarchy-built state of the §8 scenario document (total accessor). -/
def scenarioBuiltState : ParserState :=
  (buildHierarchy 2 (processEvents scenarioEvents initState)).getD initState

/-- The hierarchy-built state of `attEvents` (total accessor). -/
def attBuiltState : ParserState :=
  (buildHierarchy 3 (processEvents attEvents initState)).getD initState

/-! # Theorems -/

/-! ## Dictionary lemmas -/

theorem dfind_dinsert (k k' : String) (v : α) (l : Dict α) :
    dfind k (dinsert k' v l) = if k' = k then some v else dfind k l := by
  induction l with
  | nil => simp [dinsert, dfind]
  | cons hd tl ih =>
    obtain ⟨k₀, v₀⟩ := hd
    by_cases h₀ : k₀ = k'
    · subst h₀
      by_cases h₁ : k₀ = k <;> simp [dinsert, dfind, h₁]
    · by_cases h₁ : k₀ = k
      · subst h₁
        simp [dinsert, dfind, h₀, if_neg (Ne.symm h₀)]
      · simp [dinsert, dfind, h₀, h₁, ih]

theorem dfind_dupdate (k k' : String) (f : α → α) (l : Dict α) :
    dfind k (dupdate k' f l) = if k' = k then (dfind k l).map f else dfind k l := by
  induction l with
  | nil => simp [dupdate, dfind]
  | cons hd tl ih =>
    obtain ⟨k₀, v₀⟩ := hd
    by_cases h₀ : k₀ = k'
    · subst h₀
      by_cases h₁ : k₀ = k <;> simp [dupdate, dfind, h₁]
    · by_cases h₁ : k₀ = k
      · subst h₁
        simp [dupdate, dfind, h₀, if_neg (Ne.symm h₀)]
      · simp [dupdate, dfind, h₀, h₁, ih]

theorem dcontains_eq_true_iff (k : String) (d : Dict α) :
    dcontains k d = true ↔ ∃ v, dfind k d = some v := by
  simp [dcontains, Option.isSome_iff_exists]

/-! ## Claim C1 -/

/-- On any state whose table stores, at `i`, an occurrence with no
`instancedRef` whose child-reference list is `[i]`, the recursive descent of
`_build_sub_occurrences` re-enters `i` before anything else and so completes
under no recursion budget. -/
theorem buildSub_self_loop (i : String) :
    ∀ fuel st occ, dfind i st.data.occurrences = some occ → occ.instancedRef = none →
      occ.occurrenceRefIDs = [i] → buildSub fuel st i = none := by
  intro fuel
  induction fuel with
  | zero => intro st occ _ _ _; rfl
  | succ n ih =>
    intro st occ h1 h2 h3
    have hc : dcontains i st.data.occurrences = true := by simp [dcontains, h1]
    simp only [buildSub, linkRevision, h1, h2, h3, buildListF, hc, if_true]
    rw [ih st occ h1 h2 h3]

/-- Claim C1: the claim demands that the hierarchy builder terminate on every
parsed document and detect and break reference cycles; the code's
`_build_sub_occurrences` recurses without any guard, so on the document whose
occurrence `occ1` lists itself as a child the builder completes under no
recursion budget (`buildSub` is `none` for every fuel), and the whole parse
returns no result for every fuel (in CPython: a RecursionError swallowed by
`parse`, which returns `None`). -/
theorem c1_cycle_unbounded_recursion :
    (∀ fuel, buildSub fuel cycState "occ1" = none) ∧
    (∀ fuel, parse_plmxml fuel (.found (.events cyclicEvents)) = none) := by
  have key : ∀ fuel, buildSub fuel cycState "occ1" = none := fun fuel =>
    buildSub_self_loop "occ1" fuel cycState { id := "occ1", occurrenceRefIDs := ["occ1"] }
      (by decide) rfl rfl
  refine ⟨key, fun fuel => ?_⟩
  have hpv : cycState.data.productViews = [{ id := "pv1", rootRefs := ["occ1"] }] := by decide
  have hroot : rootIdsOf { id := "pv1", rootRefs := ["occ1"] } = ["occ1"] := by decide
  have hc : dcontains "occ1" cycState.data.occurrences = true := by decide
  simp only [parse_plmxml, parserParse, buildHierarchy]
  rw [show processEvents cyclicEvents initState = cycState from rfl, hpv]
  simp only [buildPVs, hroot, buildListF, hc, if_true, key]

/-! ## Claim C2 -/

/-- Claim C2: parsing the §8 scenario document yields exactly one product
view (`pv1`) with exactly one resolved root occurrence (`occ1`), whose
display name is the explicit display string `"PartA-001 / A"` (preferred over
the plain name `"Part A Rev 1"`), whose revision is `"1"`, whose product code
is `"PartA-001"`, with zero resolved children and zero attachment details. -/
theorem c2_scenario_resolution :
    (parse_plmxml 2 (.found (.events scenarioEvents))).map (fun st =>
        st.data.productViews.map fun pv => (pv.id, pv.occurrences)) =
      some [("pv1", ["occ1"])] ∧
    (parse_plmxml 2 (.found (.events scenarioEvents))).map (fun st =>
        (dfind "occ1" st.data.occurrences).map fun o => o.displayName) =
      some (some (some "PartA-001 / A")) ∧
    (parse_plmxml 2 (.found (.events scenarioEvents))).map (fun st =>
        (dfind "occ1" st.data.occurrences).map fun o => o.name) =
      some (some (some "Part A Rev 1")) ∧
    (parse_plmxml 2 (.found (.events scenarioEvents))).map (fun st =>
        (dfind "occ1" st.data.occurrences).map fun o => o.revision) =
      some (some (some "1")) ∧
    (parse_plmxml 2 (.found (.events scenarioEvents))).map (fun st =>
        (dfind "occ1" st.data.occurrences).map fun o => o.productId) =
      some (some (some "PartA-001")) ∧
    (parse_plmxml 2 (.found (.events scenarioEvents))).map (fun st =>
        (dfind "occ1" st.data.occurrences).map fun o => o.subOccurrences) =
      some (some []) ∧
    (parse_plmxml 2 (.found (.events scenarioEvents))).map (fun st =>
        (dfind "occ1" st.data.occurrences).map fun o => o.attachment_details) =
      some (some []) := by
  refine ⟨?_, ?_, ?_, ?_, ?_, ?_, ?_⟩ <;> decide

/-! ## Claim C5 -/

/-- Claim C5 counterexample: a nested value element carrying the (empty)
title `""` and the value `"v"`, with the attributes-in-context flag set and
the Occurrence `"o"` open, changes no record at all — whereas rule (1) of
the claim routes every title other than `SequenceNumber`/`Quantity` to the
occurrence's named-attribute map, which would leave `[("", "v")]` there. -/
theorem c5_empty_title_counterexample :
    routingState.ctx.inAttributesInContext = true ∧
    routingState.ctx.occurrence = some "o" ∧
    handleStartElement "UserValue" plmNS [("title", ""), ("value", "v")] routingState =
      routingState ∧
    (dfind "o" (handleStartElement "UserValue" plmNS [("title", ""), ("value", "v")]
        routingState).data.occurrences).map Occurrence.userAttributes ≠ some [("", "v")] := by
  refine ⟨by decide, by decide, by decide, by decide⟩

/-- Claim C5 as amended: for every nested value element carrying a
*non-empty* title and a value, exactly one routing rule applies, first match
wins — (1) attributes-in-context flag set and an Occurrence open:
`SequenceNumber`/`Quantity` to the dedicated fields, every other title to the
named-attribute map; (2) otherwise a ProductRevision open: `object_string`/
`last_mod_date` to the dedicated fields, others to the named-attribute map;
(3) otherwise a Form open: everything to the named-attribute map; and a value
element whose title is missing *or empty*, or whose value attribute is
missing, changes no record. -/
theorem c5_value_routing_amended :
    ∀ (st : ParserState) (attrib : Dict String),
      ((truthy (dfind "title" attrib) = false ∨ dfind "value" attrib = none) →
        handleStartElement "UserValue" plmNS attrib st = st) ∧
      (∀ t v, dfind "title" attrib = some t → t ≠ "" → dfind "value" attrib = some v →
        ((st.ctx.inAttributesInContext = true → ∀ oid, st.ctx.occurrence = some oid →
          handleStartElement "UserValue" plmNS attrib st =
            { st with data := { st.data with
                occurrences := dupdate oid (routeOccValue t v) st.data.occurrences } }) ∧
         ((st.ctx.inAttributesInContext = false ∨ st.ctx.occurrence = none) →
          ∀ rid, st.ctx.productRevision = some rid →
          handleStartElement "UserValue" plmNS attrib st =
            { st with data := { st.data with
                productRevisions := dupdate rid (routeRevValue t v) st.data.productRevisions } }) ∧
         ((st.ctx.inAttributesInContext = false ∨ st.ctx.occurrence = none) →
          st.ctx.productRevision = none → ∀ fid, st.ctx.form = some fid →
          handleStartElement "UserValue" plmNS attrib st =
            { st with data := { st.data with
                forms := dupdate fid (routeFormValue t v) st.data.forms } }) ∧
         ((st.ctx.inAttributesInContext = false ∨ st.ctx.occurrence = none) →
          st.ctx.productRevision = none → st.ctx.form = none →
          handleStartElement "UserValue" plmNS attrib st = st))) := by
  intro st attrib
  constructor
  · intro h
    rcases h with h | h
    · cases h1 : dfind "title" attrib with
      | none => simp [handleStartElement, startUserValue, routeValue, h1, plmNS]
      | some t =>
        rw [h1] at h
        simp only [truthy] at h
        have ht : t = "" := by simpa using h
        cases h2 : dfind "value" attrib with
        | none => simp [handleStartElement, startUserValue, routeValue, h1, h2, plmNS]
        | some v => simp [handleStartElement, startUserValue, routeValue, h1, h2, ht, plmNS]
    · cases h1 : dfind "title" attrib with
      | none => simp [handleStartElement, startUserValue, routeValue, h1, plmNS]
      | some t => simp [handleStartElement, startUserValue, routeValue, h1, h, plmNS]
  · intro t v h1 ht h2
    refine ⟨fun hflag oid hoid => ?_, fun hfall rid hrid => ?_,
      fun hfall hrev fid hfid => ?_, fun hfall hrev hform => ?_⟩
    · simp [handleStartElement, startUserValue, routeValue, h1, h2, ht, hflag, hoid, plmNS]
      rfl
    · have hocc : (if st.ctx.inAttributesInContext then st.ctx.occurrence else none) = none := by
        rcases hfall with hf | hf <;> simp [hf]
      simp [handleStartElement, startUserValue, routeValue, h1, h2, ht, hocc, hrid, plmNS]
      rfl
    · have hocc : (if st.ctx.inAttributesInContext then st.ctx.occurrence else none) = none := by
        rcases hfall with hf | hf <;> simp [hf]
      simp [handleStartElement, startUserValue, routeValue, h1, h2, ht, hocc, hrev, hfid, plmNS]
      rfl
    · have hocc : (if st.ctx.inAttributesInContext then st.ctx.occurrence else none) = none := by
        rcases hfall with hf | hf <;> simp [hf]
      simp [handleStartElement, startUserValue, routeValue, h1, h2, ht, hocc, hrev, hform, plmNS]

/-- Witness for the amended C5 routing theorem: a `Quantity` value routed to
the open occurrence `"o"` of `routingState`. -/
theorem c5_value_routing_amended_witness :
    handleStartElement "UserValue" plmNS [("title", "Quantity"), ("value", "7")] routingState =
      { routingState with data := { routingState.data with
          occurrences := dupdate "o" (routeOccValue "Quantity" "7")
            routingState.data.occurrences } } :=
  ((c5_value_routing_amended routingState [("title", "Quantity"), ("value", "7")]).2
    "Quantity" "7" rfl (by decide) rfl).1 (by decide) "o" (by decide)

/-! ## Claim C7 -/

/-- Claim C7 counterexample: the close event of an element *outside* the
recognized namespace (here `urn:other`, local name `Occurrence`) does change
the parsing context: it removes the open `Occurrence` entry, because
`_handle_end_element` performs no namespace check. -/
theorem c7_foreign_close_counterexample :
    processEvent openOccState (.endEv (some "urn:other") "Occurrence") ≠ openOccState ∧
    openOccState.ctx.occurrence = some "occ1" ∧
    (processEvent openOccState (.endEv (some "urn:other") "Occurrence")).ctx.occurrence =
      none := by
  refine ⟨by decide, by decide, by decide⟩

/-- Claim C7 as amended: the open event of an element outside the recognized
namespace leaves the state (tables and context) unchanged, and within the
namespace an unrecognized tag name is likewise a no-op on open; close events
never touch the record tables, but they are processed without a namespace
check, so a close whose local name is not one of the context-sensitive names
is a complete no-op while a foreign-namespace close with a matching local
name can clear a context entry (see the counterexample). -/
theorem c7_namespace_filtering_amended :
    (∀ tag (ns : Option String) attrib st, ns ≠ some PLMXML_NS →
      handleStartElement tag ns attrib st = st) ∧
    (∀ tag attrib st, tag ∉ recognizedTags →
      handleStartElement tag (some PLMXML_NS) attrib st = st) ∧
    (∀ (ns : Option String) tag st, (processEvent st (.endEv ns tag)).data = st.data) ∧
    (∀ (ns : Option String) tag st, tag ∉ endSensitiveTags →
      processEvent st (.endEv ns tag) = st) := by
  refine ⟨fun tag ns attrib st h => ?_, fun tag attrib st h => ?_,
    fun ns tag st => rfl, fun ns tag st h => ?_⟩
  · rw [handleStartElement, if_pos h]
  · simp only [recognizedTags, List.mem_cons, List.not_mem_nil, or_false, not_or] at h
    obtain ⟨h1, h2, h3, h4, h5, h6, h7, h8, h9, h10, h11, h12, h13, h14, h15, h16⟩ := h
    simp [handleStartElement, h1, h2, h3, h4, h5, h6, h7, h8, h9, h10, h11, h12, h13, h14,
      h15, h16]
  · simp only [endSensitiveTags, List.mem_cons, List.not_mem_nil, or_false, not_or] at h
    obtain ⟨h1, h2, h3, h4, h5, h6, h7, h8, h9, h10⟩ := h
    simp [processEvent, handleEndElement, h1, h2, h3, h4, h5, h6, h7, h8, h9, h10]

/-- Witness for the amended C7 theorem: a foreign-namespace open and an
unrecognized close are no-ops on the initial state. -/
theorem c7_namespace_filtering_amended_witness :
    handleStartElement "Occurrence" (some "urn:other") [("id", "x")] initState = initState ∧
    processEvent initState (.endEv plmNS "Bogus") = initState :=
  ⟨c7_namespace_filtering_amended.1 "Occurrence" (some "urn:other") [("id", "x")] initState
      (by decide),
   c7_namespace_filtering_amended.2.2.2 plmNS "Bogus" initState (by decide)⟩

/-! ## Claim C8 -/

/-- Claim C8: `parse_plmxml` returns `none` exactly for the fatal conditions
— file not found, unrecoverable XML stream, or an exception during the parse
(in the model: the hierarchy build not completing) — and never a partial
result for them; a successfully parsed document with no data yields the
non-`none` empty result; and `parse_plmxml_header` is `none` exactly when the
parse failed, returning the empty dict (`some none`) when the parse succeeded
with no header record and the populated header from the first-inserted
general-info record otherwise. -/
theorem c8_fatal_no_result :
    (∀ fuel, parse_plmxml fuel .notFound = none) ∧
    (∀ fuel, parse_plmxml fuel (.found .unrecoverable) = none) ∧
    (∀ fuel evs, parse_plmxml fuel (.found (.events evs)) = none ↔
      buildHierarchy fuel (processEvents evs initState) = none) ∧
    parse_plmxml 0 (.found (.events [])) = some initState ∧
    (∀ fuel f, parse_plmxml_header fuel f = none ↔ parse_plmxml fuel f = none) ∧
    (∀ fuel f st, parse_plmxml fuel f = some st → st.data.generalInfo = [] →
      parse_plmxml_header fuel f = some none) ∧
    (∀ fuel f st k gi rest, parse_plmxml fuel f = some st →
      st.data.generalInfo = (k, gi) :: rest →
      parse_plmxml_header fuel f =
        some (some { schemaVersion := gi.id, author := gi.author, date := gi.date,
                     time := gi.time })) ∧
    parse_plmxml_header 0 (.found (.events [])) = some none := by
  refine ⟨fun fuel => rfl, fun fuel => rfl, fun fuel evs => ?_, by decide,
    fun fuel f => ?_, fun fuel f st h1 h2 => ?_, fun fuel f st k gi rest h1 h2 => ?_, by decide⟩
  · simp only [parse_plmxml, parserParse]
    cases h : buildHierarchy fuel (processEvents evs initState) <;> simp [h]
  · simp only [parse_plmxml_header]
    cases h : parse_plmxml fuel f with
    | none => simp
    | some st =>
      cases hg : st.data.generalInfo with
      | nil => simp [hg]
      | cons p rest =>
        obtain ⟨k, gi⟩ := p
        simp [hg]
  · simp only [parse_plmxml_header, h1, h2]
  · simp only [parse_plmxml_header, h1, h2]

/-- Witness for C8: the empty document parses to the empty result, so the
header query returns the empty dict, not the failure marker. -/
theorem c8_fatal_no_result_witness :
    parse_plmxml_header 0 (.found (.events [])) = some none :=
  c8_fatal_no_result.2.2.2.2.2.1 0 (.found (.events [])) initState
    c8_fatal_no_result.2.2.2.1 rfl

/-! ## Claim C10 -/

/-- Claim C10: `Occurrence.__eq__` compares only the `id` fields (so two
occurrences agreeing on `id` but differing in children, attributes and
resolved fields compare equal), and `Occurrence.__hash__` is the builtin hash
applied to the `id`. -/
theorem c10_occurrence_eq_hash :
    (∀ a b : Occurrence, occEq a b = true ↔ a.id = b.id) ∧
    (∀ (h : String → Nat) (a : Occurrence), occHashWith h a = h a.id) ∧
    occEq occSampleA occSampleB = true ∧
    occSampleA ≠ occSampleB := by
  refine ⟨fun a b => ?_, fun h a => rfl, by decide, by decide⟩
  simp [occEq]

/-- Witness for C10: the equality law applied to the two concrete occurrences
that share an id but differ everywhere else. -/
theorem c10_occurrence_eq_hash_witness :
    occEq occSampleA occSampleB = true :=
  (c10_occurrence_eq_hash.1 occSampleA occSampleB).mpr rfl

/-! ## Hierarchy-builder invariant lemmas -/

theorem tablesEq_refl (s : ParserState) : TablesEq s s := by
  refine ⟨rfl, rfl, rfl, rfl, rfl, rfl, rfl, rfl, rfl, rfl⟩

theorem tablesEq_trans {s t u : ParserState} (h1 : TablesEq s t) (h2 : TablesEq t u) :
    TablesEq s u := by
  obtain ⟨a1, a2, a3, a4, a5, a6, a7, a8, a9, a10⟩ := h1
  obtain ⟨b1, b2, b3, b4, b5, b6, b7, b8, b9, b10⟩ := h2
  exact ⟨b1.trans a1, b2.trans a2, b3.trans a3, b4.trans a4, b5.trans a5, b6.trans a6,
    b7.trans a7, b8.trans a8, b9.trans a9, b10.trans a10⟩

theorem staticsEq_refl (s : ParserState) : StaticsEq s s := fun _ => rfl

theorem staticsEq_trans {s t u : ParserState} (h1 : StaticsEq s t) (h2 : StaticsEq t u) :
    StaticsEq s u := fun i => (h2 i).trans (h1 i)

theorem dcontains_of_staticsEq {s t : ParserState} (h : StaticsEq s t) (i : String) :
    dcontains i t.data.occurrences = dcontains i s.data.occurrences := by
  have := h i
  simp only [dcontains]
  cases h1 : dfind i s.data.occurrences <;> cases h2 : dfind i t.data.occurrences <;>
    simp [h1, h2] at this ⊢

theorem occStatics_inj_fields {a b : Occurrence} (h : occStatics a = occStatics b) :
    a.id = b.id ∧ a.instancedRef = b.instancedRef ∧
      a.associatedAttachmentRefs = b.associatedAttachmentRefs ∧
      a.occurrenceRefIDs = b.occurrenceRefIDs := by
  simp only [occStatics, Prod.mk.injEq] at h
  exact ⟨h.1, h.2.1, h.2.2.1, h.2.2.2.1⟩

theorem revOf_congr {s t : ParserState} (ht : TablesEq s t) (hs : StaticsEq s t) (i : String) :
    revOf t i = revOf s i := by
  have hmap := hs i
  simp only [revOf]
  cases h1 : dfind i s.data.occurrences with
  | none => cases h2 : dfind i t.data.occurrences <;> simp [h1, h2] at hmap ⊢
  | some a =>
    cases h2 : dfind i t.data.occurrences with
    | none => simp [h1, h2] at hmap
    | some b =>
      simp only [h1, h2, Option.map_some] at hmap
      obtain ⟨-, hinst, -, -⟩ := occStatics_inj_fields (Option.some.inj hmap)
      simp only [hinst, ht.1]

theorem attRefsOf_congr {s t : ParserState} (hs : StaticsEq s t) (i : String) :
    attRefsOf t i = attRefsOf s i := by
  have hmap := hs i
  simp only [attRefsOf]
  cases h1 : dfind i s.data.occurrences with
  | none => cases h2 : dfind i t.data.occurrences <;> simp [h1, h2] at hmap ⊢
  | some a =>
    cases h2 : dfind i t.data.occurrences with
    | none => simp [h1, h2] at hmap
    | some b =>
      simp only [h1, h2, Option.map_some] at hmap
      exact (occStatics_inj_fields (Option.some.inj hmap)).2.2.1

theorem resolveAttachments_congr {d d' : ParsedPLMXMLData}
    (ha : d'.associatedAttachments = d.associatedAttachments) (hd : d'.dataSets = d.dataSets)
    (refs : List String) (rid : String) :
    resolveAttachments refs rid d' = resolveAttachments refs rid d := by
  induction refs with
  | nil => rfl
  | cons a rest ih => simp only [resolveAttachments, ih, ha, hd]

theorem expDetails_congr {s t : ParserState} (ht : TablesEq s t) (hs : StaticsEq s t)
    (i : String) : expDetails t i = expDetails s i := by
  simp only [expDetails, revOf_congr ht hs, attRefsOf_congr hs]
  cases revOf s i with
  | none => rfl
  | some rev =>
    simp only
    rw [resolveAttachments_congr ht.2.2.1 ht.2.2.2.1]

theorem detailStep_refl (s : ParserState) : DetailStep s s := fun _ => Or.inl rfl

theorem detailStep_trans {s t u : ParserState} (ht : TablesEq s t) (hs : StaticsEq s t)
    (d1 : DetailStep s t) (d2 : DetailStep t u) : DetailStep s u := by
  intro i
  rcases d2 i with h2 | ⟨h2s, h2⟩
  · rcases d1 i with h1 | ⟨h1s, h1⟩
    · exact Or.inl (h2.trans h1)
    · exact Or.inr ⟨h1s, h2.trans h1⟩
  · rw [expDetails_congr ht hs] at h2s h2
    exact Or.inr ⟨h2s, h2⟩

theorem warnMono_refl (s : ParserState) : WarnMono s s := fun _ h => h

theorem warnMono_trans {s t u : ParserState} (h1 : WarnMono s t) (h2 : WarnMono t u) :
    WarnMono s u := fun w hw => h2 w (h1 w hw)

theorem buildInv_refl (s : ParserState) : BuildInv s s :=
  ⟨tablesEq_refl s, rfl, rfl, staticsEq_refl s, detailStep_refl s, warnMono_refl s⟩

theorem buildInv_trans {s t u : ParserState} (h1 : BuildInv s t) (h2 : BuildInv t u) :
    BuildInv s u := by
  obtain ⟨t1, p1, c1, s1, d1, w1⟩ := h1
  obtain ⟨t2, p2, c2, s2, d2, w2⟩ := h2
  exact ⟨tablesEq_trans t1 t2, p2.trans p1, c2.trans c1, staticsEq_trans s1 s2,
    detailStep_trans t1 s1 d1 d2, warnMono_trans w1 w2⟩

theorem buildInv_addWarning (w : Warning) (s : ParserState) : BuildInv s (addWarning w s) :=
  ⟨tablesEq_refl s, rfl, rfl, staticsEq_refl s, detailStep_refl s,
   fun _ hw => List.mem_append_left _ hw⟩

theorem mem_addWarning (w : Warning) (s : ParserState) : w ∈ (addWarning w s).warnings := by
  simp [addWarning]

theorem buildListF_spec (bs : ParserState → String → Option ParserState)
    (hbs : ∀ st r st', bs st r = some st' → BuildInv st st')
    (mkWarn : String → Warning) :
    ∀ (refs : List String) (st st' : ParserState) (ids : List String),
      buildListF bs mkWarn st refs = some (st', ids) →
      BuildInv st st' ∧
      ids = refs.filter (fun r => dcontains r st.data.occurrences) ∧
      (∀ r ∈ refs, dcontains r st.data.occurrences = false → mkWarn r ∈ st'.warnings) := by
  intro refs
  induction refs with
  | nil =>
    intro st st' ids h
    simp only [buildListF, Option.some.injEq, Prod.mk.injEq] at h
    obtain ⟨rfl, rfl⟩ := h
    exact ⟨buildInv_refl st, rfl, by simp⟩
  | cons c rest ih =>
    intro st st' ids h
    simp only [buildListF] at h
    by_cases hc : dcontains c st.data.occurrences = true
    · rw [if_pos hc] at h
      cases hbs' : bs st c with
      | none => simp [hbs'] at h
      | some st1 =>
        simp only [hbs'] at h
        cases hrest : buildListF bs mkWarn st1 rest with
        | none => simp [hrest] at h
        | some p =>
          obtain ⟨st2, ids1⟩ := p
          simp only [hrest, Option.some.injEq, Prod.mk.injEq] at h
          obtain ⟨rfl, rfl⟩ := h
          have inv1 := hbs st c st1 hbs'
          obtain ⟨inv2, hids, hw⟩ := ih st1 st2 ids1 hrest
          have hdc : ∀ r, dcontains r st1.data.occurrences = dcontains r st.data.occurrences :=
            dcontains_of_staticsEq inv1.2.2.2.1
          refine ⟨buildInv_trans inv1 inv2, ?_, ?_⟩
          · rw [List.filter_cons_of_pos (by simpa using hc)]
            rw [hids]
            exact congrArg _ (List.filter_congr fun r _ => hdc r)
          · intro r hr hrf
            rcases List.mem_cons.mp hr with rfl | hr'
            · rw [hrf] at hc; exact absurd hc (by simp)
            · exact hw r hr' (by rw [hdc r]; exact hrf)
    · rw [if_neg hc] at h
      have hcf : dcontains c st.data.occurrences = false := by
        simpa using hc
      have inv0 := buildInv_addWarning (mkWarn c) st
      obtain ⟨inv2, hids, hw⟩ := ih (addWarning (mkWarn c) st) st' ids h
      refine ⟨buildInv_trans inv0 inv2, ?_, ?_⟩
      · rw [List.filter_cons_of_neg (by simpa using hcf)]
        exact hids
      · intro r hr hrf
        rcases List.mem_cons.mp hr with rfl | hr'
        · exact inv2.2.2.2.2.2 (mkWarn r) (mem_addWarning (mkWarn r) st)
        · exact hw r hr' hrf

theorem detailsAt_writeSubOccs (s : ParserState) (r : String) (childIds : List String)
    (i : String) : detailsAt (writeSubOccs s r childIds) i = detailsAt s i := by
  show (dfind i (dupdate r (fun o => { o with subOccurrences := childIds })
      s.data.occurrences)).map Occurrence.attachment_details =
    (dfind i s.data.occurrences).map Occurrence.attachment_details
  rw [dfind_dupdate]
  by_cases hi : r = i
  · rw [if_pos hi]
    cases h : dfind i s.data.occurrences <;> simp [h]
  · rw [if_neg hi]

theorem staticsEq_writeSubOccs (s : ParserState) (r : String) (childIds : List String) :
    StaticsEq s (writeSubOccs s r childIds) := by
  intro i
  show (dfind i (dupdate r (fun o => { o with subOccurrences := childIds })
      s.data.occurrences)).map occStatics = (dfind i s.data.occurrences).map occStatics
  rw [dfind_dupdate]
  by_cases hi : r = i
  · rw [if_pos hi]
    cases h : dfind i s.data.occurrences <;> simp [h, occStatics]
  · rw [if_neg hi]

theorem buildInv_writeSubOccs (s : ParserState) (r : String) (childIds : List String) :
    BuildInv s (writeSubOccs s r childIds) :=
  ⟨⟨rfl, rfl, rfl, rfl, rfl, rfl, rfl, rfl, rfl, rfl⟩, rfl, rfl,
    staticsEq_writeSubOccs s r childIds, fun i => Or.inl (detailsAt_writeSubOccs s r childIds i),
    fun _ h => h⟩

theorem detailsAt_linkApply (s : ParserState) (r : String) (f : Occurrence → Occurrence)
    (ws : List Warning) (i : String) :
    detailsAt (linkApply s r f ws) i =
      if r = i then ((dfind i s.data.occurrences).map f).map Occurrence.attachment_details
      else detailsAt s i := by
  show (dfind i (dupdate r f s.data.occurrences)).map Occurrence.attachment_details = _
  rw [dfind_dupdate]
  by_cases hi : r = i
  · rw [if_pos hi, if_pos hi]
  · rw [if_neg hi, if_neg hi]; rfl

theorem staticsEq_linkApply (s : ParserState) (r : String) (f : Occurrence → Occurrence)
    (ws : List Warning) (hf : ∀ o, occStatics (f o) = occStatics o) :
    StaticsEq s (linkApply s r f ws) := by
  intro i
  show (dfind i (dupdate r f s.data.occurrences)).map occStatics = _
  rw [dfind_dupdate]
  by_cases hi : r = i
  · rw [if_pos hi]
    cases h : dfind i s.data.occurrences <;> simp [h, hf]
  · rw [if_neg hi]

theorem expDetails_elim {s : ParserState} {r : String} (h : (expDetails s r).isSome = true) :
    ∃ occ iref revData, dfind r s.data.occurrences = some occ ∧ occ.instancedRef = some iref ∧
      iref ≠ "" ∧ dfind iref s.data.productRevisions = some revData ∧
      expDetails s r =
        some (resolveAttachments occ.associatedAttachmentRefs revData.id s.data).1 := by
  cases hocc : dfind r s.data.occurrences with
  | none => simp [expDetails, revOf, hocc] at h
  | some occ =>
    cases hinst : occ.instancedRef with
    | none => simp [expDetails, revOf, hocc, hinst] at h
    | some iref =>
      by_cases hne : iref = ""
      · simp [expDetails, revOf, hocc, hinst, hne] at h
      · cases hrev : dfind iref s.data.productRevisions with
        | none => simp [expDetails, revOf, hocc, hinst, hne, hrev] at h
        | some revData =>
          refine ⟨occ, iref, revData, rfl, hinst, hne, hrev, ?_⟩
          simp [expDetails, revOf, attRefsOf, hocc, hinst, hne, hrev]

theorem linkRevision_spec (st : ParserState) (r : String) (occ : Occurrence)
    (hocc : dfind r st.data.occurrences = some occ) :
    BuildInv st (linkRevision st r occ) ∧
      ((expDetails st r).isSome = true →
        detailsAt (linkRevision st r occ) r = expDetails st r) := by
  cases hinst : occ.instancedRef with
  | none =>
    have hnone : expDetails st r = none := by simp [expDetails, revOf, hocc, hinst]
    simp only [linkRevision, hinst]
    exact ⟨buildInv_refl st, fun hsome => by rw [hnone] at hsome; cases hsome⟩
  | some iref =>
    by_cases hne : iref = ""
    · subst hne
      have hnone : expDetails st r = none := by simp [expDetails, revOf, hocc, hinst]
      simp only [linkRevision, hinst, ne_eq, not_true_eq_false, ite_false]
      exact ⟨buildInv_refl st, fun hsome => by rw [hnone] at hsome; cases hsome⟩
    · cases hrev : dfind iref st.data.productRevisions with
      | none =>
        have hnone : expDetails st r = none := by
          simp [expDetails, revOf, hocc, hinst, hne, hrev]
        simp only [linkRevision, hinst]
        rw [if_pos (by simpa using hne)]
        simp only [hrev]
        exact ⟨buildInv_refl st, fun hsome => by rw [hnone] at hsome; cases hsome⟩
      | some revData =>
        have hexp : expDetails st r =
            some (resolveAttachments occ.associatedAttachmentRefs revData.id st.data).1 := by
          simp [expDetails, revOf, attRefsOf, hocc, hinst, hne, hrev]
        have hsome : (expDetails st r).isSome = true := by rw [hexp]; rfl
        simp only [linkRevision, hinst]
        rw [if_pos (by simpa using hne)]
        simp only [hrev]
        have hdet : detailsAt (linkApply st r (linkFields occ revData st.data)
            (resolveAttachments occ.associatedAttachmentRefs revData.id st.data).2) r =
            expDetails st r := by
          rw [detailsAt_linkApply, if_pos rfl, hocc, hexp]
          rfl
        constructor
        · refine ⟨⟨rfl, rfl, rfl, rfl, rfl, rfl, rfl, rfl, rfl, rfl⟩, rfl, rfl,
            staticsEq_linkApply st r _ _ (fun o => rfl), ?_,
            fun w hw => List.mem_append_left _ hw⟩
          intro i
          by_cases hi : r = i
          · subst hi
            exact Or.inr ⟨hsome, hdet⟩
          · left
            rw [detailsAt_linkApply, if_neg hi]
        · intro _
          exact hdet

theorem buildSub_inv :
    ∀ (fuel : Nat) (st : ParserState) (r : String) (st' : ParserState),
      buildSub fuel st r = some st' → BuildInv st st' := by
  intro fuel
  induction fuel with
  | zero => intro st r st' h; simp [buildSub] at h
  | succ n ih =>
    intro st r st' h
    simp only [buildSub] at h
    cases hocc : dfind r st.data.occurrences with
    | none =>
      simp only [hocc, Option.some.injEq] at h
      exact h ▸ buildInv_refl st
    | some occ =>
      simp only [hocc] at h
      cases hbl : buildListF (buildSub n) (fun c => Warning.childNotFound c r)
          (linkRevision st r occ) occ.occurrenceRefIDs with
      | none => simp [hbl] at h
      | some p =>
        obtain ⟨st2, childIds⟩ := p
        simp only [hbl, Option.some.injEq] at h
        obtain ⟨inv2, -, -⟩ := buildListF_spec (buildSub n) ih _ _ _ _ _ hbl
        exact h ▸ buildInv_trans (linkRevision_spec st r occ hocc).1
          (buildInv_trans inv2 (buildInv_writeSubOccs st2 r childIds))

theorem buildSub_details (fuel : Nat) (st : ParserState) (r : String) (st' : ParserState)
    (h : buildSub fuel st r = some st') (hsome : (expDetails st r).isSome = true) :
    detailsAt st' r = expDetails st r := by
  cases fuel with
  | zero => simp [buildSub] at h
  | succ n =>
    simp only [buildSub] at h
    obtain ⟨occ, iref, revData, hocc, -, -, -, -⟩ := expDetails_elim hsome
    simp only [hocc] at h
    cases hbl : buildListF (buildSub n) (fun c => Warning.childNotFound c r)
        (linkRevision st r occ) occ.occurrenceRefIDs with
    | none => simp [hbl] at h
    | some p =>
      obtain ⟨st2, childIds⟩ := p
      simp only [hbl, Option.some.injEq] at h
      subst h
      have hlr := linkRevision_spec st r occ hocc
      have hd1 : detailsAt (linkRevision st r occ) r = expDetails st r := hlr.2 hsome
      obtain ⟨inv2, -, -⟩ := buildListF_spec (buildSub n) (buildSub_inv n) _ _ _ _ _ hbl
      have hexp_eq : expDetails (linkRevision st r occ) r = expDetails st r :=
        expDetails_congr hlr.1.1 hlr.1.2.2.2.1 r
      have hd2 : detailsAt st2 r = expDetails st r := by
        rcases inv2.2.2.2.2.1 r with h2 | ⟨-, h2⟩
        · rw [h2, hd1]
        · rw [h2, hexp_eq]
      rw [detailsAt_writeSubOccs, hd2]

theorem buildSub_details_none (fuel : Nat) (st : ParserState) (r : String)
    (st' : ParserState) (h : buildSub fuel st r = some st')
    (hnone : (expDetails st r).isSome = false) : detailsAt st' r = detailsAt st r := by
  rcases (buildSub_inv fuel st r st' h).2.2.2.2.1 r with h2 | ⟨hs, -⟩
  · exact h2
  · rw [hnone] at hs; cases hs

theorem buildPVs_spec (fuel : Nat) :
    ∀ (pvs : List ProductView) (st st' : ParserState) (out : List ProductView),
      buildPVs fuel st pvs = some (st', out) →
      BuildInv st st' ∧
      out.map (fun pv => (pv.id, pv.occurrences)) =
        pvs.map (fun pv => (pv.id, (rootIdsOf pv).filter
          (fun r => dcontains r st.data.occurrences))) ∧
      (∀ pv ∈ pvs, ∀ r ∈ rootIdsOf pv, dcontains r st.data.occurrences = false →
        Warning.rootNotFound r pv.id ∈ st'.warnings) := by
  intro pvs
  induction pvs with
  | nil =>
    intro st st' out h
    simp only [buildPVs, Option.some.injEq, Prod.mk.injEq] at h
    obtain ⟨rfl, rfl⟩ := h
    exact ⟨buildInv_refl st, rfl, by simp⟩
  | cons pv rest ih =>
    intro st st' out h
    simp only [buildPVs] at h
    cases hbl : buildListF (buildSub fuel) (fun r => Warning.rootNotFound r pv.id) st
        (rootIdsOf pv) with
    | none => simp [hbl] at h
    | some p =>
      obtain ⟨st1, ids⟩ := p
      simp only [hbl] at h
      cases hrest : buildPVs fuel st1 rest with
      | none => simp [hrest] at h
      | some q =>
        obtain ⟨st2, outRest⟩ := q
        simp only [hrest, Option.some.injEq, Prod.mk.injEq] at h
        obtain ⟨rfl, rfl⟩ := h
        obtain ⟨inv1, hids, hw1⟩ :=
          buildListF_spec (buildSub fuel) (buildSub_inv fuel) _ _ _ _ _ hbl
        obtain ⟨inv2, hmap, hw2⟩ := ih st1 st2 outRest hrest
        have hdc : ∀ r, dcontains r st1.data.occurrences = dcontains r st.data.occurrences :=
          dcontains_of_staticsEq inv1.2.2.2.1
        refine ⟨buildInv_trans inv1 inv2, ?_, ?_⟩
        · simp only [List.map_cons]
          refine congrArg₂ List.cons ?_ ?_
          · simpa using hids
          · rw [hmap]
            exact List.map_congr_left fun pv2 h2 => by
              rw [List.filter_congr fun r hr2 => hdc r]
        · intro pv2 hpv2 r hr hrf
          rcases List.mem_cons.mp hpv2 with rfl | hpv2'
          · exact inv2.2.2.2.2.2 _ (hw1 r hr hrf)
          · exact hw2 pv2 hpv2' r hr (by rw [hdc r]; exact hrf)

theorem buildHierarchy_spec (fuel : Nat) (st st' : ParserState)
    (h : buildHierarchy fuel st = some st') :
    TablesEq st st' ∧ StaticsEq st st' ∧ DetailStep st st' ∧ WarnMono st st' ∧
    st'.ctx = st.ctx ∧
    st'.data.productViews.map (fun pv => (pv.id, pv.occurrences)) =
      st.data.productViews.map (fun pv => (pv.id, (rootIdsOf pv).filter
        (fun r => dcontains r st.data.occurrences))) ∧
    (∀ pv ∈ st.data.productViews, ∀ r ∈ rootIdsOf pv,
      dcontains r st.data.occurrences = false →
      Warning.rootNotFound r pv.id ∈ st'.warnings) := by
  simp only [buildHierarchy] at h
  cases hbp : buildPVs fuel st st.data.productViews with
  | none => simp [hbp] at h
  | some p =>
    obtain ⟨st1, pvs⟩ := p
    simp only [hbp, Option.some.injEq] at h
    subst h
    obtain ⟨inv1, hmap, hw⟩ := buildPVs_spec fuel _ st st1 pvs hbp
    exact ⟨inv1.1, inv1.2.2.2.1, inv1.2.2.2.2.1, inv1.2.2.2.2.2, inv1.2.2.1, hmap, hw⟩

theorem buildListF_all_missing (bs : ParserState → String → Option ParserState)
    (mkWarn : String → Warning) :
    ∀ (refs : List String) (st : ParserState),
      (∀ r ∈ refs, dcontains r st.data.occurrences = false) →
      ∃ st', buildListF bs mkWarn st refs = some (st', []) ∧ st'.data = st.data := by
  intro refs
  induction refs with
  | nil => intro st _; exact ⟨st, rfl, rfl⟩
  | cons c rest ih =>
    intro st h
    have hc : dcontains c st.data.occurrences = false := h c (by simp)
    obtain ⟨st', h1, h2⟩ := ih (addWarning (mkWarn c) st)
      (fun r hr => h r (List.mem_cons_of_mem _ hr))
    refine ⟨st', ?_, h2⟩
    simp only [buildListF]
    rw [if_neg (by simp [hc])]
    exact h1

theorem buildPVs_all_missing (fuel : Nat) :
    ∀ (pvs : List ProductView) (st : ParserState),
      (∀ pv ∈ pvs, ∀ r ∈ rootIdsOf pv, dcontains r st.data.occurrences = false) →
      ∃ st', buildPVs fuel st pvs =
          some (st', pvs.map fun pv => { pv with occurrences := [] }) ∧
        st'.data = st.data := by
  intro pvs
  induction pvs with
  | nil => intro st _; exact ⟨st, rfl, rfl⟩
  | cons pv rest ih =>
    intro st h
    obtain ⟨st1, h1, hd1⟩ := buildListF_all_missing (buildSub fuel)
      (fun r => Warning.rootNotFound r pv.id) (rootIdsOf pv) st
      (fun r hr => h pv (by simp) r hr)
    obtain ⟨st2, h2, hd2⟩ := ih st1 (fun pv2 hpv r hr => by
      rw [show st1.data = st.data from hd1]
      exact h pv2 (List.mem_cons_of_mem _ hpv) r hr)
    refine ⟨st2, ?_, hd2.trans hd1⟩
    simp only [buildPVs, h1, h2, List.map_cons]

theorem occDetailsEmpty_initState : OccDetailsEmpty initState := by
  intro i occ h
  simp [initState, dfind] at h

theorem occDetailsEmpty_of_eq (s t : ParserState)
    (he : t.data.occurrences = s.data.occurrences) (h : OccDetailsEmpty s) :
    OccDetailsEmpty t := fun i occ hf => h i occ (he ▸ hf)

theorem startPLMXML_occurrences (attrib : Dict String) (st : ParserState) :
    (startPLMXML attrib st).data.occurrences = st.data.occurrences := rfl

theorem startHeader_occurrences (attrib : Dict String) (st : ParserState) :
    (startHeader attrib st).data.occurrences = st.data.occurrences := by
  unfold startHeader; repeat' split <;> rfl

theorem startSite_occurrences (attrib : Dict String) (st : ParserState) :
    (startSite attrib st).data.occurrences = st.data.occurrences := by
  unfold startSite; repeat' split <;> rfl

theorem startProductView_occurrences (attrib : Dict String) (st : ParserState) :
    (startProductView attrib st).data.occurrences = st.data.occurrences := by
  unfold startProductView; repeat' split <;> rfl

theorem startProduct_occurrences (attrib : Dict String) (st : ParserState) :
    (startProduct attrib st).data.occurrences = st.data.occurrences := by
  unfold startProduct; repeat' split <;> rfl

theorem startProductRevision_occurrences (attrib : Dict String) (st : ParserState) :
    (startProductRevision attrib st).data.occurrences = st.data.occurrences := by
  unfold startProductRevision; repeat' split <;> rfl

theorem startRevisionRule_occurrences (attrib : Dict String) (st : ParserState) :
    (startRevisionRule attrib st).data.occurrences = st.data.occurrences := by
  unfold startRevisionRule; repeat' split <;> rfl

theorem startAssociatedAttachment_occurrences (attrib : Dict String) (st : ParserState) :
    (startAssociatedAttachment attrib st).data.occurrences = st.data.occurrences := by
  unfold startAssociatedAttachment; repeat' split <;> rfl

theorem startForm_occurrences (attrib : Dict String) (st : ParserState) :
    (startForm attrib st).data.occurrences = st.data.occurrences := by
  unfold startForm; repeat' split <;> rfl

theorem startDataSet_occurrences (attrib : Dict String) (st : ParserState) :
    (startDataSet attrib st).data.occurrences = st.data.occurrences := by
  unfold startDataSet; repeat' split <;> rfl

theorem startExternalFile_occurrences (attrib : Dict String) (st : ParserState) :
    (startExternalFile attrib st).data.occurrences = st.data.occurrences := by
  unfold startExternalFile; repeat' split <;> rfl

theorem startUserData_occurrences (attrib : Dict String) (st : ParserState) :
    (startUserData attrib st).data.occurrences = st.data.occurrences := by
  unfold startUserData; repeat' split <;> rfl

theorem startApplicationRef_occurrences (attrib : Dict String) (st : ParserState) :
    (startApplicationRef attrib st).data.occurrences = st.data.occurrences := by
  unfold startApplicationRef
  dsimp only
  repeat' split
  all_goals rfl

theorem occDetailsEmpty_dinsert (tbl : Dict Occurrence) (j : String) (v : Occurrence)
    (hv : v.attachment_details = [])
    (h : ∀ i occ, dfind i tbl = some occ → occ.attachment_details = []) :
    ∀ i occ, dfind i (dinsert j v tbl) = some occ → occ.attachment_details = [] := by
  intro i occ hfind
  rw [dfind_dinsert] at hfind
  split at hfind
  · cases hfind; exact hv
  · exact h i occ hfind

theorem occDetailsEmpty_dupdate (tbl : Dict Occurrence) (j : String)
    (f : Occurrence → Occurrence)
    (hf : ∀ o, (f o).attachment_details = o.attachment_details)
    (h : ∀ i occ, dfind i tbl = some occ → occ.attachment_details = []) :
    ∀ i occ, dfind i (dupdate j f tbl) = some occ → occ.attachment_details = [] := by
  intro i occ hfind
  rw [dfind_dupdate] at hfind
  split at hfind
  · rcases Option.map_eq_some'.mp hfind with ⟨o, ho, hfo⟩
    subst hfo
    rw [hf o]
    exact h i o ho
  · exact h i occ hfind

theorem occDetailsEmpty_startOccurrence (attrib : Dict String) (st : ParserState)
    (h : OccDetailsEmpty st) : OccDetailsEmpty (startOccurrence attrib st) := by
  unfold startOccurrence
  cases hid : idOf attrib with
  | none => exact h
  | some j =>
    refine occDetailsEmpty_dinsert st.data.occurrences j _ ?_ h
    rfl

theorem occDetailsEmpty_routeValue (t v : String) (st : ParserState)
    (h : OccDetailsEmpty st) : OccDetailsEmpty (routeValue t v st) := by
  unfold routeValue
  cases hx : (if st.ctx.inAttributesInContext then st.ctx.occurrence else none) with
  | some oid =>
    refine occDetailsEmpty_dupdate st.data.occurrences oid _ ?_ h
    intro o
    dsimp only
    split
    · rfl
    · split <;> rfl
  | none =>
    cases st.ctx.productRevision with
    | some rid => exact h
    | none =>
      cases st.ctx.form with
      | some fid => exact h
      | none => exact h

theorem occDetailsEmpty_startUserValue (attrib : Dict String) (st : ParserState)
    (h : OccDetailsEmpty st) : OccDetailsEmpty (startUserValue attrib st) := by
  unfold startUserValue
  cases dfind "title" attrib with
  | none => exact h
  | some t =>
    cases dfind "value" attrib with
    | none => exact h
    | some v =>
      show OccDetailsEmpty (if t = "" then st else routeValue t v st)
      by_cases ht : t = ""
      · rw [if_pos ht]; exact h
      · rw [if_neg ht]
        exact occDetailsEmpty_routeValue t v st h

theorem occDetailsEmpty_handleStart (tag : String) (ns : Option String)
    (attrib : Dict String) (st : ParserState) (h : OccDetailsEmpty st) :
    OccDetailsEmpty (handleStartElement tag ns attrib st) := by
  unfold handleStartElement
  by_cases h0 : ns ≠ some PLMXML_NS
  · rw [if_pos h0]; exact h
  rw [if_neg h0]
  by_cases h1 : tag = "PLMXML"
  · rw [if_pos h1]; exact occDetailsEmpty_of_eq st _ (startPLMXML_occurrences attrib st) h
  rw [if_neg h1]
  by_cases h2 : tag = "Header"
  · rw [if_pos h2]; exact occDetailsEmpty_of_eq st _ (startHeader_occurrences attrib st) h
  rw [if_neg h2]
  by_cases h3 : tag = "Site"
  · rw [if_pos h3]; exact occDetailsEmpty_of_eq st _ (startSite_occurrences attrib st) h
  rw [if_neg h3]
  by_cases h4 : tag = "ProductView"
  · rw [if_pos h4]; exact occDetailsEmpty_of_eq st _ (startProductView_occurrences attrib st) h
  rw [if_neg h4]
  by_cases h5 : tag = "Occurrence"
  · rw [if_pos h5]; exact occDetailsEmpty_startOccurrence attrib st h
  rw [if_neg h5]
  by_cases h6 : tag = "Product"
  · rw [if_pos h6]; exact occDetailsEmpty_of_eq st _ (startProduct_occurrences attrib st) h
  rw [if_neg h6]
  by_cases h7 : tag = "ProductRevision"
  · rw [if_pos h7]
    exact occDetailsEmpty_of_eq st _ (startProductRevision_occurrences attrib st) h
  rw [if_neg h7]
  by_cases h8 : tag = "RevisionRule"
  · rw [if_pos h8]; exact occDetailsEmpty_of_eq st _ (startRevisionRule_occurrences attrib st) h
  rw [if_neg h8]
  by_cases h9 : tag = "AssociatedAttachment"
  · rw [if_pos h9]
    exact occDetailsEmpty_of_eq st _ (startAssociatedAttachment_occurrences attrib st) h
  rw [if_neg h9]
  by_cases h10 : tag = "Form"
  · rw [if_pos h10]; exact occDetailsEmpty_of_eq st _ (startForm_occurrences attrib st) h
  rw [if_neg h10]
  by_cases h11 : tag = "DataSet"
  · rw [if_pos h11]; exact occDetailsEmpty_of_eq st _ (startDataSet_occurrences attrib st) h
  rw [if_neg h11]
  by_cases h12 : tag = "ExternalFile"
  · rw [if_pos h12]; exact occDetailsEmpty_of_eq st _ (startExternalFile_occurrences attrib st) h
  rw [if_neg h12]
  by_cases h13 : tag = "UserData"
  · rw [if_pos h13]; exact occDetailsEmpty_of_eq st _ (startUserData_occurrences attrib st) h
  rw [if_neg h13]
  by_cases h14 : tag = "UserValue"
  · rw [if_pos h14]; exact occDetailsEmpty_startUserValue attrib st h
  rw [if_neg h14]
  by_cases h15 : tag = "AssociatedDataSet"
  · rw [if_pos h15]; exact h
  rw [if_neg h15]
  by_cases h16 : tag = "ApplicationRef"
  · rw [if_pos h16]
    exact occDetailsEmpty_of_eq st _ (startApplicationRef_occurrences attrib st) h
  rw [if_neg h16]
  exact h

theorem occDetailsEmpty_processEvents (evs : List XMLEvent) :
    ∀ st, OccDetailsEmpty st → OccDetailsEmpty (processEvents evs st) := by
  induction evs with
  | nil => intro st h; exact h
  | cons ev rest ih =>
    intro st h
    cases ev with
    | startEv ns tag attrib => exact ih _ (occDetailsEmpty_handleStart tag ns attrib st h)
    | endEv ns tag => exact ih _ (occDetailsEmpty_of_eq st _ rfl h)

theorem resolveAttachments_fst (d : ParsedPLMXMLData) (revId : String) :
    ∀ refs : List String,
      (resolveAttachments refs revId d).1 = refs.filterMap (attDetailOf d) := by
  intro refs
  induction refs with
  | nil => rfl
  | cons a rest ih =>
    simp only [resolveAttachments, List.filterMap_cons]
    cases ha : dfind a d.associatedAttachments with
    | none => simp [attDetailOf, ha, ih]
    | some att =>
      cases har : att.attachmentRef with
      | none => simp [attDetailOf, ha, har, ih]
      | some r =>
        by_cases hr : r ≠ "" ∧ dcontains r d.dataSets
        · simp [attDetailOf, ha, har, hr, ih]
        · simp [attDetailOf, ha, har, hr, ih]

theorem resolveAttachments_snd (d : ParsedPLMXMLData) (revId : String) :
    ∀ refs : List String,
      (resolveAttachments refs revId d).2 =
        (refs.filter fun a => (dfind a d.associatedAttachments).isNone).map
          fun a => Warning.attachmentNotFound a revId := by
  intro refs
  induction refs with
  | nil => rfl
  | cons a rest ih =>
    simp only [resolveAttachments]
    cases ha : dfind a d.associatedAttachments with
    | none => simp [ha, ih]
    | some att =>
      cases har : att.attachmentRef with
      | none => simp [ha, har, ih]
      | some r =>
        by_cases hr : r ≠ "" ∧ dcontains r d.dataSets
        · simp [ha, har, hr, ih]
        · simp [ha, har, hr, ih]

theorem attDetailOf_iff (d : ParsedPLMXMLData) (a : String) (det : AttachmentDetail) :
    attDetailOf d a = some det ↔
      ∃ att, dfind a d.associatedAttachments = some att ∧ det.role = att.role ∧
        att.attachmentRef = some det.dataSetId ∧ det.dataSetId ≠ "" ∧
        dcontains det.dataSetId d.dataSets = true := by
  cases ha : dfind a d.associatedAttachments with
  | none => simp [attDetailOf, ha]
  | some att =>
    cases har : att.attachmentRef with
    | none => simp [attDetailOf, ha, har]
    | some r =>
      by_cases hr : r ≠ "" ∧ dcontains r d.dataSets
      · simp only [attDetailOf, ha, har]
        rw [if_pos hr]
        constructor
        · rintro h
          cases h
          exact ⟨att, rfl, rfl, har, hr.1, hr.2⟩
        · rintro ⟨att', ha', hrole, href, hne, hds⟩
          cases ha'
          rw [har] at href
          cases href
          cases det
          simp_all
      · simp only [attDetailOf, ha, har]
        rw [if_neg hr]
        constructor
        · rintro ⟨⟩
        · rintro ⟨att', ha', hrole, href, hne, hds⟩
          cases ha'
          rw [har] at href
          cases href
          exact absurd ⟨hne, hds⟩ hr

theorem resolveAttachments_mem (d : ParsedPLMXMLData) (revId : String) (refs : List String)
    (det : AttachmentDetail) (h : det ∈ (resolveAttachments refs revId d).1) :
    det.dataSetId ≠ "" ∧ dcontains det.dataSetId d.dataSets = true := by
  rw [resolveAttachments_fst] at h
  obtain ⟨a, -, hdet⟩ := List.mem_filterMap.mp h
  obtain ⟨att, -, -, -, hne, hds⟩ := (attDetailOf_iff d a det).mp hdet
  exact ⟨hne, hds⟩

/-! ## Claim C3 -/

/-- Claim C3, counterexample: in `attEvents`, occurrence `o1` has no
`instancedRef`; its attachment reference `a1` is in the AssociatedAttachment
table and targets the known DataSet `d1`, so the claim (which quantifies over
every occurrence, "whether or not its instancedRef resolves") predicts the
detail `{role := Reference, dataSetId := d1}` for `o1` — yet after hierarchy
building `o1`'s details are empty, because the code's attachment loop runs
only inside the branch where `instancedRef` resolves.  Moreover `o2`'s
attachment `a2` is in the table but targets the Form `f1` (not a DataSet):
the claim says such attachments are dropped WITH a warning, yet the build
finishes with no warning at all. -/
theorem c3_unresolved_instancedref_counterexample :
    (buildHierarchy 3 (processEvents attEvents initState)).isSome = true ∧
    dcontains "a1" (processEvents attEvents initState).data.associatedAttachments = true ∧
    dcontains "d1" (processEvents attEvents initState).data.dataSets = true ∧
    attDetailOf (processEvents attEvents initState).data "a1" =
      some { role := some "Reference", dataSetId := "d1" } ∧
    detailsAt attBuiltState "o1" = some [] ∧
    detailsAt attBuiltState "o1" ≠
      some [{ role := some "Reference", dataSetId := "d1" }] ∧
    dcontains "a2" (processEvents attEvents initState).data.associatedAttachments = true ∧
    dcontains "f1" (processEvents attEvents initState).data.dataSets = false ∧
    (revOf (processEvents attEvents initState) "o2").isSome = true ∧
    detailsAt attBuiltState "o2" = some [] ∧
    attBuiltState.warnings = [] := by
  refine ⟨?_, ?_, ?_, ?_, ?_, ?_, ?_, ?_, ?_, ?_, ?_⟩ <;> decide

/-- Claim C3 (amended): the attachment loop runs only for an occurrence whose
`instancedRef` is truthy and resolves to a known ProductRevision — otherwise
the stored details are left untouched.  When it runs, it maps each reference
of the occurrence's attachment-reference list, in order, through
`attDetailOf`: a detail carrying the attachment's role and its target id is
kept iff the reference is in the AssociatedAttachment table AND its
`attachmentRef` target is a non-empty key of the DataSet table; references
missing from the AssociatedAttachment table produce a warning; references
present whose target does not resolve to a known DataSet are dropped
SILENTLY.  At the consumer level the resolved detail string exposes the
dataset's type and name and its member files' location and format in their
original member order. -/
theorem c3_attachment_resolution_amended :
    (∀ (d : ParsedPLMXMLData) (revId : String) (refs : List String),
      (resolveAttachments refs revId d).1 = refs.filterMap (attDetailOf d) ∧
      (resolveAttachments refs revId d).2 =
        (refs.filter fun a => (dfind a d.associatedAttachments).isNone).map
          fun a => Warning.attachmentNotFound a revId) ∧
    (∀ (d : ParsedPLMXMLData) (a : String) (det : AttachmentDetail),
      attDetailOf d a = some det ↔
        ∃ att, dfind a d.associatedAttachments = some att ∧ det.role = att.role ∧
          att.attachmentRef = some det.dataSetId ∧ det.dataSetId ≠ "" ∧
          dcontains det.dataSetId d.dataSets = true) ∧
    (∀ (fuel : Nat) (st : ParserState) (r : String) (st' : ParserState),
      buildSub fuel st r = some st' →
      (∀ rev, revOf st r = some rev →
        detailsAt st' r = some ((attRefsOf st r).filterMap (attDetailOf st.data))) ∧
      (revOf st r = none → detailsAt st' r = detailsAt st r)) ∧
    (∀ (d : ParsedPLMXMLData) (det : AttachmentDetail) (ds : DataSetData),
      dfind det.dataSetId d.dataSets = some ds →
      formatDatasetFound d det =
        "Role: " ++ pyStr det.role ++ ", Type: " ++ pyOrD ds.type "N/A" ++ ", Name: " ++
          pyOrD ds.name det.dataSetId ++ ", Files: [" ++
          (if ds.memberRefs.map (formatFileInfo d) = [] then "No Files"
           else String.intercalate "; " (ds.memberRefs.map (formatFileInfo d))) ++ "]") := by
  refine ⟨fun d revId refs => ⟨resolveAttachments_fst d revId refs,
      resolveAttachments_snd d revId refs⟩,
    fun d a det => attDetailOf_iff d a det, ?_, ?_⟩
  · intro fuel st r st' h
    constructor
    · intro rev hrev
      have hexp : expDetails st r =
          some ((attRefsOf st r).filterMap (attDetailOf st.data)) := by
        simp [expDetails, hrev, resolveAttachments_fst]
      rw [buildSub_details fuel st r st' h (by rw [hexp]; rfl), hexp]
    · intro hrev
      exact buildSub_details_none fuel st r st' h (by simp [expDetails, hrev])
  · intro d det ds h
    simp only [formatDatasetFound, h]

/-- Concrete instantiation of the resolving case of
`c3_attachment_resolution_amended` on the document `resolvedAttEvents`. -/
theorem c3_attachment_resolution_amended_witness :
    detailsAt builtAttState "oR" =
      some ((attRefsOf (processEvents resolvedAttEvents initState) "oR").filterMap
        (attDetailOf (processEvents resolvedAttEvents initState).data)) :=
  ((c3_attachment_resolution_amended.2.2.1 2 (processEvents resolvedAttEvents initState)
    "oR" builtAttState (by decide)).1 { id := "revR" } (by decide))

/-! ## Claim C4 -/

/-- Claim C4, counterexample: hierarchy building mutates a table-stored
record in place — on the §8 scenario document the occurrence record stored
in the `occurrences` table at `"occ1"` has `displayName` `none` before the
build and `"PartA-001 / A"` after it, so the stored record itself changed. -/
theorem c4_inplace_mutation_counterexample :
    (buildHierarchy 2 (processEvents scenarioEvents initState)).isSome = true ∧
    (dfind "occ1" (processEvents scenarioEvents initState).data.occurrences).map
      Occurrence.displayName = some none ∧
    (dfind "occ1" scenarioBuiltState.data.occurrences).map Occurrence.displayName =
      some (some "PartA-001 / A") ∧
    dfind "occ1" scenarioBuiltState.data.occurrences ≠
      dfind "occ1" (processEvents scenarioEvents initState).data.occurrences := by
  refine ⟨?_, ?_, ?_, ?_⟩ <;> decide

/-- Claim C4 (amended): what hierarchy building actually leaves untouched —
every record table other than `occurrences` is preserved verbatim
(`TablesEq`), and each occurrence entry keeps all of its parse-time fields
(`StaticsEq`: id, instancedRef, reference lists, sequenceNumber, quantity,
userAttributes); but the builder DOES rewrite table-stored occurrence
records in place: their `attachment_details` are either untouched or set to
the computed resolution (`DetailStep`), and warnings are only appended
(`WarnMono`). -/
theorem c4_tables_readonly_amended (fuel : Nat) (st st' : ParserState)
    (h : buildHierarchy fuel st = some st') :
    TablesEq st st' ∧ StaticsEq st st' ∧ DetailStep st st' ∧ WarnMono st st' :=
  let s := buildHierarchy_spec fuel st st' h
  ⟨s.1, s.2.1, s.2.2.1, s.2.2.2.1⟩

/-- Concrete instantiation of `c4_tables_readonly_amended` on the §8
scenario document. -/
theorem c4_tables_readonly_amended_witness :
    TablesEq (processEvents scenarioEvents initState) scenarioBuiltState :=
  (c4_tables_readonly_amended 2 (processEvents scenarioEvents initState)
    scenarioBuiltState (by decide)).1

/-! ## Claim C6 -/

/-- Claim C6: for every ProductView the resolved root list is built from
`rootIdsOf` ({rootRefs if non-empty, else [primaryOccurrenceRef] if truthy,
else empty}), keeping in order exactly the identifiers present in the
Occurrence table; an identifier missing from the table is reported as a
`rootNotFound` warning and omitted; and a document all of whose views' root
references exist nowhere still builds successfully, every view resolving to
an empty root list rather than failing. -/
theorem c6_root_resolution :
    (∀ (fuel : Nat) (st st' : ParserState), buildHierarchy fuel st = some st' →
      st'.data.productViews.map (fun pv => (pv.id, pv.occurrences)) =
        st.data.productViews.map (fun pv => (pv.id, (rootIdsOf pv).filter
          (fun r => dcontains r st.data.occurrences))) ∧
      (∀ pv ∈ st.data.productViews, ∀ r ∈ rootIdsOf pv,
        dcontains r st.data.occurrences = false →
        Warning.rootNotFound r pv.id ∈ st'.warnings)) ∧
    (∀ (fuel : Nat) (st : ParserState),
      (∀ pv ∈ st.data.productViews, ∀ r ∈ rootIdsOf pv,
        dcontains r st.data.occurrences = false) →
      ∃ st', buildHierarchy fuel st = some st' ∧
        st'.data.productViews.map ProductView.occurrences =
          st.data.productViews.map fun _ => []) := by
  constructor
  · intro fuel st st' h
    obtain ⟨-, -, -, -, -, hmap, hw⟩ := buildHierarchy_spec fuel st st' h
    exact ⟨hmap, hw⟩
  · intro fuel st h
    obtain ⟨st1, h1, -⟩ := buildPVs_all_missing fuel st.data.productViews st h
    refine ⟨{ st1 with data := { st1.data with productViews := st.data.productViews.map (fun pv => { pv with occurrences := [] }) } }, ?_, ?_⟩
    · simp only [buildHierarchy, h1]
    · show (st.data.productViews.map fun pv =>
          { pv with occurrences := ([] : List String) }).map ProductView.occurrences =
        st.data.productViews.map fun _ => []
      rw [List.map_map]
      exact List.map_congr_left fun _ _ => rfl

/-- Concrete instantiation of `c6_root_resolution` on the §8 scenario
document: its single view `pv1` resolves to exactly the root list
`["occ1"]`. -/
theorem c6_root_resolution_witness :
    scenarioBuiltState.data.productViews.map (fun pv => (pv.id, pv.occurrences)) =
      [("pv1", ["occ1"])] :=
  ((c6_root_resolution.1 2 (processEvents scenarioEvents initState) scenarioBuiltState
    (by decide)).1).trans (by decide)

/-! ## Claim C9 -/

/-- Destructor for a successful `parse_plmxml`: the input was a found,
recoverable stream whose events passed through the streaming pass and the
hierarchy builder. -/
theorem parse_plmxml_elim (fuel : Nat) (f : FileInput) (st : ParserState)
    (h : parse_plmxml fuel f = some st) :
    ∃ evs, f = .found (.events evs) ∧
      buildHierarchy fuel (processEvents evs initState) = some st := by
  cases f with
  | notFound => simp [parse_plmxml] at h
  | found src =>
    cases src with
    | unrecoverable => simp [parse_plmxml, parserParse] at h
    | events evs =>
      refine ⟨evs, rfl, ?_⟩
      simp only [parse_plmxml, parserParse] at h
      cases hb : buildHierarchy fuel (processEvents evs initState) with
      | none => simp [hb] at h
      | some st1 => simp only [hb, Option.some.injEq] at h; exact h ▸ rfl

/-- Claim C9: every attachment detail stored in a successful parse result
names a non-empty key of the result's DataSet table, so on an unmodified
parse result the consumer's "(Not Found)" rendering branch is unreachable:
`formatDatasetDetail` always takes the resolved (`formatDatasetFound`)
branch. -/
theorem c9_attachment_details_resolve (fuel : Nat) (f : FileInput) (st : ParserState)
    (h : parse_plmxml fuel f = some st) (i : String) (occ : Occurrence)
    (hocc : dfind i st.data.occurrences = some occ) :
    ∀ det ∈ occ.attachment_details,
      det.dataSetId ≠ "" ∧ dcontains det.dataSetId st.data.dataSets = true ∧
      formatDatasetDetail st.data det = formatDatasetFound st.data det := by
  intro det hdet
  obtain ⟨evs, rfl, hb⟩ := parse_plmxml_elim fuel f st h
  obtain ⟨hT, -, hD, -⟩ := buildHierarchy_spec fuel (processEvents evs initState) st hb
  have hempty : OccDetailsEmpty (processEvents evs initState) :=
    occDetailsEmpty_processEvents evs initState occDetailsEmpty_initState
  have hdet_at : detailsAt st i = some occ.attachment_details := by
    simp [detailsAt, hocc]
  rcases hD i with hsame | ⟨hsome2, hexp⟩
  · rw [hsame] at hdet_at
    cases hf : dfind i (processEvents evs initState).data.occurrences with
    | none => simp [detailsAt, hf] at hdet_at
    | some occ0 =>
      have h0 : occ0.attachment_details = [] := hempty i occ0 hf
      simp only [detailsAt, hf, Option.map_some', h0, Option.some.injEq] at hdet_at
      rw [← hdet_at] at hdet
      cases hdet
  · rw [hdet_at] at hexp
    obtain ⟨occ0, iref, rev, hocc0, -, -, -, hexp_eq⟩ := expDetails_elim hsome2
    rw [hexp_eq] at hexp
    have hmem : det ∈ (resolveAttachments occ0.associatedAttachmentRefs rev.id
        (processEvents evs initState).data).1 := (Option.some.inj hexp) ▸ hdet
    obtain ⟨hne, hds0⟩ := resolveAttachments_mem _ _ _ det hmem
    have hds : dcontains det.dataSetId st.data.dataSets = true := by
      rw [hT.2.2.2.1]; exact hds0
    refine ⟨hne, hds, ?_⟩
    unfold formatDatasetDetail
    split
    · rfl
    · rename_i hc
      exact absurd ⟨hne, hds⟩ hc

/-- Concrete instantiation of `c9_attachment_details_resolve`: the single
detail of `oR` in the parse of `resolvedAttEvents` renders through the
resolved branch. -/
theorem c9_attachment_details_resolve_witness :
    formatDatasetDetail resolvedAttState.data
        { role := some "Reference", dataSetId := "dR" } =
      formatDatasetFound resolvedAttState.data
        { role := some "Reference", dataSetId := "dR" } :=
  (c9_attachment_details_resolve 2 (.found (.events resolvedAttEvents)) resolvedAttState
    (by decide) "oR"
    { id := "oR", instancedRef := some "revR", associatedAttachmentRefs := ["aR"],
      attachment_details := [{ role := some "Reference", dataSetId := "dR" }] }
    (by decide) { role := some "Reference", dataSetId := "dR" } (by decide)).2.2
